import Mathlib

/-!
Verification of the mindscope-atlas signal/session core.

Shallow embedding of the Python sources over exact rational arithmetic:
* `src/backend/meter_engine/needle_classifier.py` (NeedleClassifier.classify)
* `src/backend/meter_engine/events.py` (NeedleAction)
* `src/backend/meter_engine/charge_tracker.py` (ChargeTracker)
* `src/backend/meter_engine/hid_reader.py` (BiquadFilter, SpringMassDamper)
* `src/backend/meter_engine/instant_read.py` (InstantReadDetector)
* `src/backend/orchestrator/r3r.py` (R3RStateMachine)
* `src/backend/orchestrator/session_manager.py` (SessionManager)

Python floats are modelled as `ℚ`; decimal literals are taken exactly.
`numpy`'s real-FFT power spectrum is the one numerical routine not
re-derived here: classifier functions take the `power` list as an explicit
parameter, and every theorem about the classifier quantifies over all
possible spectra, so nothing proved depends on FFT values.
-/

/-! ## Definitions (shallow embedding of the sources) -/

/-- `np.mean` over rationals (empty list gives `0` via division by zero). -/
def listMean (xs : List ℚ) : ℚ := xs.sum / (xs.length : ℚ)

/-- `np.var` (population variance): mean of squared deviations from the mean. -/
def listVar (xs : List ℚ) : ℚ := listMean (xs.map (fun x => (x - listMean xs) ^ 2))

/-- `np.max` (with `headD 0` as the fold seed for totality). -/
def listMax (xs : List ℚ) : ℚ := xs.foldl max (xs.headD 0)

/-- `np.min` (with `headD 0` as the fold seed for totality). -/
def listMin (xs : List ℚ) : ℚ := xs.foldl min (xs.headD 0)

/-- `np.sign` on rationals, valued in `ℤ`. -/
def ratSgn (x : ℚ) : ℤ := if x < 0 then -1 else if 0 < x then 1 else 0

/-- Least-squares slope, as computed by `np.polyfit(arange(n), window, 1)[0]`:
`(n·Σ i·yᵢ − Σi·Σy) / (n·Σ i² − (Σi)²)`. -/
def lsSlope (xs : List ℚ) : ℚ :=
  let n : ℚ := (xs.length : ℚ)
  let idx : List ℚ := (List.range xs.length).map (fun i => (i : ℚ))
  let sx := idx.sum
  let sy := xs.sum
  let sxy := ((idx.zip xs).map (fun p => p.1 * p.2)).sum
  let sxx := (idx.map (fun i => i ^ 2)).sum
  (n * sxy - sx * sy) / (n * sxx - sx ^ 2)

/-- Longest run of `true` in a boolean list (helper for `_fall_duration`). -/
def maxRunTrue (l : List Bool) : ℕ :=
  (l.foldl (fun acc b => if b then (acc.1 + 1, max acc.2 (acc.1 + 1)) else (0, acc.2))
    ((0 : ℕ), (0 : ℕ))).2

/-- The 21-label needle-action vocabulary from `events.py`. -/
inductive NeedleAction where
  | idle | fall | longFall | longFallBlowdown | speededFall | rise
  | thetaBlink | rockSlam | stuck | floating | freeNeedle | stageFour
  | bodyMotion | squeeze | dirtyNeedle | nullTa | rocketRead | tick
  | doubleTick | sticky | null
  deriving DecidableEq, Repr

/-- The full vocabulary as a list — exactly the 21 enum members. -/
def needleActionVocab : List NeedleAction :=
  [.idle, .fall, .longFall, .longFallBlowdown, .speededFall, .rise,
   .thetaBlink, .rockSlam, .stuck, .floating, .freeNeedle, .stageFour,
   .bodyMotion, .squeeze, .dirtyNeedle, .nullTa, .rocketRead, .tick,
   .doubleTick, .sticky, .null]

/-- `WINDOW_SIZE = 200`. -/
def WINDOW_SIZE : ℕ := 200

/-- `SAMPLE_RATE = 100`. -/
def SAMPLE_RATE : ℚ := 100

/-- `_find_zero_crossings`: count adjacent sign changes of the mean-centered window. -/
def zeroCrossings (xs : List ℚ) : ℕ :=
  let m := listMean xs
  let signs := xs.map (fun x => ratSgn (x - m))
  ((signs.zip signs.tail).filter (fun p => p.1 != p.2)).length

/-- `_fall_duration`: longest consecutive negative-difference run, in seconds. -/
def fallDuration (xs : List ℚ) : ℚ :=
  let diffs := (xs.zip xs.tail).map (fun p => p.2 - p.1)
  ((maxRunTrue (diffs.map (fun d => decide (d < 0)))) : ℚ) / SAMPLE_RATE

/-- `np.fft.rfftfreq(n, 1/SAMPLE_RATE)`: frequencies `k·100/n` for `k = 0..n/2`. -/
def rfftFreqs (n : ℕ) : List ℚ :=
  (List.range (n / 2 + 1)).map (fun k => (k : ℚ) * SAMPLE_RATE / (n : ℚ))

/-- Frequency/power pairs for an `n`-sample window and a given power spectrum. -/
def spectrumPairs (n : ℕ) (power : List ℚ) : List (ℚ × ℚ) :=
  (rfftFreqs n).zip power

/-- Powers of the spectrum entries whose frequency lies in `[lo, hi]`. -/
def bandPowers (pairs : List (ℚ × ℚ)) (lo hi : ℚ) : List ℚ :=
  (pairs.filter (fun p => decide (lo ≤ p.1) && decide (p.1 ≤ hi))).map Prod.snd

/-- `_band_power_ratio`: fraction of total DC-excluded power in the band. -/
def bandPowerRatio (pairs : List (ℚ × ℚ)) (power : List ℚ) (lo hi : ℚ) : ℚ :=
  let total := (power.drop 1).sum
  if total < 1 / 10 ^ 10 then 0 else (bandPowers pairs lo hi).sum / total

/-- `_periodicity`: peak/mean power ratio inside a band. -/
def periodicityScore (pairs : List (ℚ × ℚ)) (lo hi : ℚ) : ℚ :=
  let band := bandPowers pairs lo hi
  if band.isEmpty then 0
  else
    let m := listMean band
    if m < 1 / 10 ^ 10 then 0 else listMax band / m

/-- `_is_rock_slam`: amplitude above 0.3 with at least 6 zero crossings. -/
def isRockSlam (amplitude : ℚ) (zc : ℕ) : Bool :=
  decide ((0.3 : ℚ) < amplitude) && decide (6 ≤ zc)

/-- `_is_floating_needle`: 0.15–0.6 Hz dominant rhythmic oscillation. -/
def isFloatingNeedle (pairs : List (ℚ × ℚ)) (power : List ℚ) (zc : ℕ)
    (amplitude : ℚ) : Bool :=
  if amplitude < 0.05 then false
  else
    let bandPairs := pairs.filter (fun p => decide ((0.15 : ℚ) ≤ p.1) && decide (p.1 ≤ (0.6 : ℚ)))
    if bandPairs.isEmpty then false
    else
      let bandPower := bandPairs.map Prod.snd
      let totalPower := (power.drop 1).sum
      if totalPower < 1 / 10 ^ 10 then false
      else if bandPower.sum / totalPower < 0.25 then false
      else if zc < 2 then false
      else
        let peakInBand := listMax bandPower
        let outside :=
          ((pairs.drop 1).filter
            (fun p => !(decide ((0.15 : ℚ) ≤ p.1) && decide (p.1 ≤ (0.6 : ℚ))))).map Prod.snd
        let meanOutside := if 0 < outside.length then listMean outside else 0
        if 0 < meanOutside && peakInBand / meanOutside < 3 then false
        else true

/-- `_is_dirty`: moderate variance and low spectral periodicity. -/
def isDirty (variance : ℚ) (power : List ℚ) : Bool :=
  if variance ≤ 0.01 then false
  else
    let total := (power.drop 1).sum
    if total < 1 / 10 ^ 10 then false
    else
      let peak := listMax (power.drop 1)
      decide (peak / (total / ((power.drop 1).length : ℚ)) < 2)

/-- `_classify_fall`: subclassify a fall by duration and speed. -/
def classifyFall (window : List ℚ) (slope : ℚ) : NeedleAction :=
  if 2 < fallDuration window then .longFallBlowdown
  else if 0.5 < fallDuration window then .longFall
  else if slope < -0.005 then .speededFall
  else .fall

/-- Condition under which the theta-blink branch fires (step 6 of the cascade). -/
def thetaCond (pairs : List (ℚ × ℚ)) (power : List ℚ) (amplitude : ℚ) : Bool :=
  decide ((0.03 : ℚ) < amplitude) &&
  decide ((3 : ℚ) < periodicityScore pairs 4.5 11) &&
  decide ((0.2 : ℚ) < bandPowerRatio pairs power 4.5 11)

/-- Condition under which the stage-four branch fires (step 7 of the cascade). -/
def stageFourCond (pairs : List (ℚ × ℚ)) (power : List ℚ) (amplitude : ℚ) : Bool :=
  decide ((0.05 : ℚ) < amplitude) &&
  decide ((3 : ℚ) < periodicityScore pairs 0.8 1.5) &&
  decide ((0.2 : ℚ) < bandPowerRatio pairs power 0.8 1.5)

/-- `NeedleClassifier.classify`: the priority cascade, first match wins.
The FFT power spectrum is passed in as `power`; all other statistics are
computed from the window exactly as in the source. -/
def classify (window : List ℚ) (power : List ℚ) : NeedleAction × ℚ :=
  if window.length < WINDOW_SIZE then (.idle, 0)
  else
    let variance := listVar window
    let amplitude := listMax window - listMin window
    let pairs := spectrumPairs window.length power
    let slope := lsSlope window
    let zc := zeroCrossings window
    if isRockSlam amplitude zc then (.rockSlam, min 1 (amplitude / 0.5))
    else if variance < 0.0005 then (.stuck, 1 - variance / 0.0005)
    else if slope < -0.001 then (classifyFall window slope, min 1 (|slope| / 0.01))
    else if 0.001 < slope then (.rise, min 1 (slope / 0.01))
    else if isFloatingNeedle pairs power zc amplitude then (.floating, 0.85)
    else if thetaCond pairs power amplitude then
      (.thetaBlink, min 1 (periodicityScore pairs 4.5 11 / 5))
    else if stageFourCond pairs power amplitude then
      (.stageFour, min 1 (periodicityScore pairs 0.8 1.5 / 5))
    else if isDirty variance power then (.dirtyNeedle, 0.6)
    else (.freeNeedle, 0.5)

/-- Python `int()` applied to a rational: truncation toward zero. -/
def pyInt (x : ℚ) : ℤ := if 0 ≤ x then ⌊x⌋ else ⌈x⌉

/-- First index attaining the maximum (`np.argmax`). -/
def idxOfMax (l : List ℚ) : ℕ := l.findIdx (fun x => x == listMax l)

/-- A finalized or pending question-charge record (`QuestionCharge`). -/
structure QuestionCharge where
  questionText : String
  questionTime : ℚ
  baselineSignal : ℚ
  peakDeviation : ℚ := 0
  signalDelta : ℚ := 0
  chargeScore : ℤ := 0
  bodyMovement : Bool := false
  reactionWindowMs : ℚ := 3000
  needleActionAtPeak : String := "idle"
  deriving Repr, DecidableEq

/-- Tracker state: rolling `(timestamp, raw)` buffer (maxlen 1000, newest
last), finalized question records, and at most one pending question. -/
structure ChargeTracker where
  signalBuffer : List (ℚ × ℚ)
  questions : List QuestionCharge
  currentQuestion : Option QuestionCharge
  deriving Repr, DecidableEq

/-- Fresh tracker (`__init__`). -/
def chargeTrackerInit : ChargeTracker := ⟨[], [], none⟩

/-- `deque(maxlen=1000)` append: drop the oldest entry past 1000. -/
def dequeAppend (buf : List (ℚ × ℚ)) (x : ℚ × ℚ) : List (ℚ × ℚ) :=
  (buf ++ [x]).drop ((buf ++ [x]).length - 1000)

/-- Absolute deviations of the reaction values from the baseline. -/
def bmDevs (values : List ℚ) (b : ℚ) : List ℚ := values.map (fun v => |v - b|)

/-- Peak deviation from baseline (`np.max(deviations)`). -/
def bmPeak (values : List ℚ) (b : ℚ) : ℚ := listMax (bmDevs values b)

/-- Index of the peak deviation (`np.argmax(deviations)`). -/
def bmPeakIdx (values : List ℚ) (b : ℚ) : ℕ := idxOfMax (bmDevs values b)

/-- Onset index: the first index before the peak whose deviation reaches 80 %
of the peak deviation, defaulting to index 0 when none does (the loop's
`onset_idx = 0` initialization). -/
def bmOnsetIdx (values : List ℚ) (b : ℚ) : ℕ :=
  if ((bmDevs values b).take (bmPeakIdx values b)).findIdx
      (fun d => decide (bmPeak values b * 0.8 ≤ d)) < bmPeakIdx values b then
    ((bmDevs values b).take (bmPeakIdx values b)).findIdx
      (fun d => decide (bmPeak values b * 0.8 ≤ d))
  else 0

/-- Onset time in ms: from the onset index up to the peak (0 when the peak is
the first sample). -/
def bmOnsetMs (values ts : List ℚ) (b : ℚ) : ℚ :=
  if 0 < bmPeakIdx values b ∧ bmOnsetIdx values b < bmPeakIdx values b then
    (ts.getD (bmPeakIdx values b) 0 - ts.getD (bmOnsetIdx values b) 0) * 1000
  else 0

/-- The decay loop of `_is_body_movement`: walk `(deviation, time)` pairs
from the peak onward; stop past 200 ms; succeed on a deviation below the
threshold. -/
def decayScan (l : List (ℚ × ℚ)) (tp th : ℚ) : Bool :=
  match l with
  | [] => false
  | (d, t) :: rest =>
    if 200 < (t - tp) * 1000 then false
    else if d < th then true
    else decayScan rest tp th

/-- Decay check: only entered when the peak is not the last sample. -/
def bmDecay (values ts : List ℚ) (b : ℚ) : Bool :=
  if bmPeakIdx values b < values.length - 1 then
    decayScan (((bmDevs values b).drop (bmPeakIdx values b)).zip
        (ts.drop (bmPeakIdx values b)))
      (ts.getD (bmPeakIdx values b) 0) (bmPeak values b * 0.3)
  else false

/-- `_is_body_movement`: fast onset plus quick resolution of a large spike. -/
def isBodyMovement (values ts : List ℚ) (b : ℚ) : Bool :=
  if values.length < 10 then false
  else if bmPeak values b < 0.15 then false
  else decide (bmOnsetMs values ts b < 50) && bmDecay values ts b

/-- `_compute_charge_score`: weighted 0–100 composite, 0 on body movement. -/
def computeChargeScore (q : QuestionCharge) (values : List ℚ) : ℤ :=
  if q.bodyMovement then 0
  else
    let deltaScore := min 1 (|q.signalDelta| / 0.03)
    let peakScore := min 1 (q.peakDeviation / 0.05)
    let sustainedFraction :=
      if 0 < q.peakDeviation then
        listMean ((bmDevs values q.baselineSignal).map
          (fun d => if q.peakDeviation * 0.2 < d then (1 : ℚ) else 0))
      else 0
    max 0 (min 100 (pyInt
      ((deltaScore * 0.40 + peakScore * 0.30 + sustainedFraction * 0.20 + 0.10) * 100)))

/-- Buffer entries inside the reaction window `[question_time, question_time + window]`. -/
def reactionSamples (q : QuestionCharge) (buf : List (ℚ × ℚ)) : List (ℚ × ℚ) :=
  buf.filter (fun p =>
    decide (q.questionTime ≤ p.1) && decide (p.1 ≤ q.questionTime + q.reactionWindowMs / 1000))

/-- `_finalize_question`, record part: fill in peak deviation, signal delta,
body movement and charge score from the reaction samples. -/
def finalizeRecord (q : QuestionCharge) (buf : List (ℚ × ℚ)) : QuestionCharge :=
  let rs := reactionSamples q buf
  if rs.length < 20 then { q with chargeScore := 0 }
  else
    let values := rs.map Prod.snd
    let timestamps := rs.map Prod.fst
    let q1 := { q with
      peakDeviation := bmPeak values q.baselineSignal,
      signalDelta := listMean values - q.baselineSignal,
      bodyMovement := isBodyMovement values timestamps q.baselineSignal }
    { q1 with chargeScore := computeChargeScore q1 values }

/-- `_finalize_question`, state part: append the finalized record and clear
the pending slot (no-op when nothing is pending). -/
def finalizeQuestion (st : ChargeTracker) : ChargeTracker :=
  match st.currentQuestion with
  | none => st
  | some q =>
    { st with questions := st.questions ++ [finalizeRecord q st.signalBuffer],
              currentQuestion := none }

/-- `feed_signal`: append the sample; finalize a pending question whose
reaction window has elapsed. -/
def feedSignal (st : ChargeTracker) (ts v : ℚ) : ChargeTracker :=
  let st1 := { st with signalBuffer := dequeAppend st.signalBuffer (ts, v) }
  match st1.currentQuestion with
  | some q =>
    if q.reactionWindowMs ≤ (ts - q.questionTime) * 1000 then finalizeQuestion st1 else st1
  | none => st1

/-- `question_dropped`: finalize any pending question, capture the 1-second
baseline, and store the new pending question (`now` is `time.monotonic()`). -/
def questionDropped (st : ChargeTracker) (now : ℚ) (text : String) : ChargeTracker :=
  let st1 := finalizeQuestion st
  let baselineSamples := (st1.signalBuffer.filter (fun p => decide (now - p.1 ≤ 1))).map Prod.snd
  let baseline := if baselineSamples.isEmpty then 0 else listMean baselineSamples
  let newQ : QuestionCharge :=
    { questionText := text, questionTime := now, baselineSignal := baseline }
  { st1 with currentQuestion := some newQ }

/-- Spec wording: fraction of reaction samples whose deviation from baseline
exceeds 20 % of the peak deviation. -/
def specSustainedFraction (values : List ℚ) (b : ℚ) : ℚ :=
  (((bmDevs values b).filter (fun d => decide (bmPeak values b * 0.2 < d))).length : ℚ)
    / (values.length : ℚ)

/-- Spec wording: the weighted raw score
`0.40·min(1,|signal_delta|/0.03) + 0.30·min(1,peak/0.05) + 0.20·sustained + 0.10`. -/
def specRawScore (values : List ℚ) (b : ℚ) : ℚ :=
  0.40 * min 1 (|listMean values - b| / 0.03) + 0.30 * min 1 (bmPeak values b / 0.05)
    + 0.20 * specSustainedFraction values b + 0.10

/-- The claim's score with truncation toward zero (what the code computes via
Python `int()`), after scaling to 0–100 and clamping. -/
def specChargeScoreTrunc (values : List ℚ) (b : ℚ) : ℤ :=
  max 0 (min 100 (pyInt (specRawScore values b * 100)))

/-- The claim's score as literally stated: scaled to 0–100, clamped to
`[0,100]`, and rounded to the nearest integer. -/
def specChargeScoreRounded (values : List ℚ) (b : ℚ) : ℤ :=
  round (max (0 : ℚ) (min 100 (specRawScore values b * 100)))

/-- Concrete pending question for the C4 witness. -/
def c4Q : QuestionCharge := { questionText := "q", questionTime := 0, baselineSignal := 0 }

/-- Concrete tracker state for the C4 witness. -/
def c4St : ChargeTracker := { signalBuffer := [], questions := [], currentQuestion := some c4Q }

/-- Concrete question for the C2 witness/counterexample: baseline 0, asked at
`t = 0`, default 3000 ms window. -/
def c2Q : QuestionCharge := { questionText := "q", questionTime := 0, baselineSignal := 0 }

/-- Concrete buffer for C2: 30 samples at 10 Hz spacing inside the reaction
window; 20 zeros followed by 10 samples at 0.1. -/
def c2Buf : List (ℚ × ℚ) :=
  (List.range 30).map (fun k => ((k : ℚ) / 10, if k < 20 then 0 else 0.1))

/-- The claim's three conditions (with the peak threshold inclusive, as the
code implements it): peak deviation at least 0.15, onset under 50 ms, and
some later sample within 200 ms of the peak back within 30 % of the peak. -/
def bodyMovementSpec (values ts : List ℚ) (b : ℚ) : Prop :=
  0.15 ≤ bmPeak values b ∧ bmOnsetMs values ts b < 50 ∧
  ∃ j, bmPeakIdx values b < j ∧ j < values.length ∧
    (ts.getD j 0 - ts.getD (bmPeakIdx values b) 0) * 1000 ≤ 200 ∧
    (bmDevs values b).getD j 0 < bmPeak values b * 0.3

/-- Concrete reaction values for the C3 witness: a sharp 0.5 spike that
resolves immediately. -/
def c3V : List ℚ := 0 :: 0.5 :: List.replicate 18 0

/-- Concrete timestamps for C3: 20 samples at 100 Hz. -/
def c3T : List ℚ := (List.range 20).map (fun k => (k : ℚ) / 100)

/-- Concrete reaction values whose peak deviation is exactly 0.15. -/
def c3XV : List ℚ := 0.15 :: List.replicate 19 0

/-- The 18 members of the `R3RState` enum. -/
inductive R3RState where
  | locateIncident | whatHappened | moveThrough | duration | beginning
  | moveThroughAgain | whatsHappening | anythingAdded | tellMeAbout
  | abcdARecall | abcdBWhen | abcdCWhatDidYouDo | abcdDAnythingElse
  | abcdErasingOrSolid
  | earlierSimilar | chainEP | checkNextFlow | itemComplete
  deriving DecidableEq, Repr

/-- The three flows. -/
inductive R3RFlow where
  | flow1 | flow2 | flow3
  deriving DecidableEq, Repr

/-- `FLOW_LABELS`. -/
def flowLabel : R3RFlow → String
  | .flow1 => "done to you"
  | .flow2 => "you did to another"
  | .flow3 => "another did to others"

/-- `INITIAL_SEQUENCE`: the 9-step sequence before A-B-C-D cycling. -/
def INITIAL_SEQUENCE : List R3RState :=
  [.locateIncident, .whatHappened, .duration, .beginning, .moveThrough,
   .whatsHappening, .moveThroughAgain, .anythingAdded, .tellMeAbout]

/-- `R3RContext`. -/
structure R3RContext where
  currentFlow : R3RFlow := .flow1
  abcdCount : ℕ := 0
  chainDepth : ℕ := 0
  fnDetected : Bool := false
  cognitionNoted : Bool := false
  vgisPresent : Bool := false
  flowsCompleted : List R3RFlow := []
  deriving DecidableEq, Repr

/-- `R3RStateMachine` mutable state. -/
structure R3RMachine where
  state : R3RState := .locateIncident
  ctx : R3RContext := {}
  initialStep : ℕ := 0
  inInitialSequence : Bool := true
  durationValue : String := ""
  deriving DecidableEq, Repr

/-- A fresh machine (`__init__`). -/
def r3rInit : R3RMachine := {}

/-- Is `sub` a contiguous sublist of the second argument? -/
def listIsInfixOf (sub : List Char) : List Char → Bool
  | [] => sub.isPrefixOf []
  | c :: t => sub.isPrefixOf (c :: t) || listIsInfixOf sub t

/-- Python `str.strip()`: drop whitespace from both ends. -/
def pyStrip (s : List Char) : List Char :=
  ((s.dropWhile Char.isWhitespace).reverse.dropWhile Char.isWhitespace).reverse

/-- Python `str.lower()`. -/
def pyLower (s : List Char) : List Char := s.map Char.toLower

/-- `pc_response.strip().lower()`, as a character list. -/
def responseLower (s : String) : List Char := pyLower (pyStrip s.toList)

/-- Python `sub in s` on (already-normalized) strings. -/
def pyContains (l sub : List Char) : Bool := listIsInfixOf sub l

/-- `get_command`: the command template for the current state, with the flow
label and captured duration interpolated. -/
def getCommand (m : R3RMachine) : String :=
  let fl := flowLabel m.ctx.currentFlow
  let dur := if m.durationValue = "" then "the end" else m.durationValue
  match m.state with
  | .locateIncident => "Locate an incident of " ++ fl ++ "."
  | .whatHappened => "What happened?"
  | .moveThrough => "Move through the incident to a point " ++ dur ++ " later."
  | .duration => "What is the duration of that incident?"
  | .beginning => "Move to the beginning of that incident."
  | .moveThroughAgain => "Move through to the end of that incident."
  | .whatsHappening => "What's happening?"
  | .anythingAdded => "Is anything being added to that incident?"
  | .tellMeAbout => "Tell me about that."
  | .abcdARecall => "Recall the incident."
  | .abcdBWhen => "When was it?"
  | .abcdCWhatDidYouDo => "What did you do?"
  | .abcdDAnythingElse => "Is there anything else about that incident?"
  | .abcdErasingOrSolid => "Is that incident erasing or going more solid?"
  | .earlierSimilar => "Is there an earlier similar incident?"
  | .chainEP => "How does it seem to you now?"
  | .checkNextFlow => "Good. Let's check another flow."
  | .itemComplete => "Very good."

/-- `reset_for_new_item`. -/
def resetForNewItem (m : R3RMachine) : R3RMachine :=
  { m with
    ctx := {}
    inInitialSequence := true
    initialStep := 0
    durationValue := ""
    state := .locateIncident }

/-- `_check_ep`: both branches land on `chain_ep` (the full-EP test only
changes nothing observable). -/
def checkEP (m : R3RMachine) : R3RMachine × String :=
  if m.ctx.fnDetected && m.ctx.cognitionNoted && m.ctx.vgisPresent then
    ({ m with state := .chainEP }, getCommand { m with state := .chainEP })
  else
    ({ m with state := .chainEP }, getCommand { m with state := .chainEP })

/-- `_check_next_flow`: mark the current flow completed, then go to
`check_next_flow` when another flow is pending, else `item_complete`. -/
def checkNextFlowStep (m : R3RMachine) : R3RMachine × String :=
  let m := { m with ctx :=
    { m.ctx with flowsCompleted := m.ctx.flowsCompleted ++ [m.ctx.currentFlow] } }
  if m.ctx.currentFlow = R3RFlow.flow1 ∧ R3RFlow.flow2 ∉ m.ctx.flowsCompleted then
    ({ m with state := .checkNextFlow }, getCommand { m with state := .checkNextFlow })
  else if m.ctx.currentFlow = R3RFlow.flow2 ∧ R3RFlow.flow3 ∉ m.ctx.flowsCompleted then
    ({ m with state := .checkNextFlow }, getCommand { m with state := .checkNextFlow })
  else
    ({ m with state := .itemComplete }, getCommand { m with state := .itemComplete })

/-- `_advance_flow`: move to the next uncompleted flow, resetting the
end-phenomena booleans, counters and the 9-step pointer. -/
def advanceFlow (m : R3RMachine) : R3RMachine × String :=
  if R3RFlow.flow2 ∉ m.ctx.flowsCompleted then
    let ctx2 : R3RContext := { m.ctx with
      currentFlow := .flow2
      fnDetected := false
      cognitionNoted := false
      vgisPresent := false
      abcdCount := 0
      chainDepth := 0 }
    let m2 := { m with
      ctx := ctx2
      inInitialSequence := true
      initialStep := 0
      state := .locateIncident }
    (m2, getCommand m2)
  else if R3RFlow.flow3 ∉ m.ctx.flowsCompleted then
    let ctx2 : R3RContext := { m.ctx with
      currentFlow := .flow3
      fnDetected := false
      cognitionNoted := false
      vgisPresent := false
      abcdCount := 0
      chainDepth := 0 }
    let m2 := { m with
      ctx := ctx2
      inInitialSequence := true
      initialStep := 0
      state := .locateIncident }
    (m2, getCommand m2)
  else
    ({ m with state := .itemComplete }, getCommand { m with state := .itemComplete })

/-- `R3RStateMachine.transition`. -/
def transition (m : R3RMachine) (pcResponse : String)
    (fn cognition vgis : Bool) : R3RMachine × String :=
  let ctx1 : R3RContext := { m.ctx with
    fnDetected := m.ctx.fnDetected || fn
    cognitionNoted := m.ctx.cognitionNoted || cognition
    vgisPresent := m.ctx.vgisPresent || vgis }
  let m := { m with ctx := ctx1 }
  if m.inInitialSequence then
    let step := m.initialStep + 1
    if step < INITIAL_SEQUENCE.length then
      let newDur :=
        if INITIAL_SEQUENCE.getD (step - 1) .locateIncident = R3RState.duration then
          (if pyStrip pcResponse.toList = [] then "the end"
           else String.mk (pyStrip pcResponse.toList))
        else m.durationValue
      let m2 := { m with
        initialStep := step
        state := INITIAL_SEQUENCE.getD step .locateIncident
        durationValue := newDur }
      (m2, getCommand m2)
    else
      let m2 := { m with
        initialStep := step
        inInitialSequence := false
        state := .abcdARecall }
      (m2, getCommand m2)
  else
    match m.state with
    | .abcdARecall =>
      ({ m with state := .abcdBWhen }, getCommand { m with state := .abcdBWhen })
    | .abcdBWhen =>
      ({ m with state := .abcdCWhatDidYouDo },
        getCommand { m with state := .abcdCWhatDidYouDo })
    | .abcdCWhatDidYouDo =>
      ({ m with state := .abcdDAnythingElse },
        getCommand { m with state := .abcdDAnythingElse })
    | .abcdDAnythingElse =>
      let m2 := { m with
        ctx := { m.ctx with abcdCount := m.ctx.abcdCount + 1 }
        state := .abcdErasingOrSolid }
      (m2, getCommand m2)
    | .abcdErasingOrSolid =>
      if pyContains (responseLower pcResponse) "erasing".toList
          || pyContains (responseLower pcResponse) "lighter".toList then
        ({ m with state := .abcdARecall }, getCommand { m with state := .abcdARecall })
      else
        ({ m with state := .earlierSimilar },
          getCommand { m with state := .earlierSimilar })
    | .earlierSimilar =>
      if pyContains (responseLower pcResponse) "yes".toList then
        let m2 := { m with
          ctx := { m.ctx with chainDepth := m.ctx.chainDepth + 1, abcdCount := 0 }
          inInitialSequence := true
          initialStep := 0
          state := .locateIncident }
        (m2, getCommand m2)
      else checkEP m
    | .chainEP => checkNextFlowStep m
    | .checkNextFlow => advanceFlow m
    | .itemComplete =>
      let m2 := resetForNewItem m
      (m2, getCommand m2)
    | _ => (m, getCommand m)

/-- The concrete C5 scenario responses: 9 initial-sequence transitions,
A-B-C-D (4 transitions), "more solid" at erasing-or-solid, "yes" at
earlier-similar. -/
def c5Responses : List String :=
  ["", "", "", "", "", "", "", "", "", "", "", "", "", "more solid", "yes"]

/-- The machine after running the C5 scenario from a fresh machine. -/
def c5Trace : R3RMachine :=
  c5Responses.foldl (fun m r => (transition m r false false false).1) r3rInit

/-- The machine used by the C5 witness: fresh context, parked at
`earlier_similar`. -/
def c5M : R3RMachine :=
  { r3rInit with state := R3RState.earlierSimilar, inInitialSequence := false }

/-- Two consecutive transitions (used to observe the `chain_ep` →
`check_next_flow` → flow-advance composite). -/
def r3rStep2 (m : R3RMachine) (r1 r2 : String) (f1 c1 v1 f2 c2 v2 : Bool) : R3RMachine :=
  (transition (transition m r1 f1 c1 v1).1 r2 f2 c2 v2).1

/-- The machine used by the C6 witness: fresh context at `chain_ep`. -/
def c6M : R3RMachine :=
  { r3rInit with state := R3RState.chainEP, inInitialSequence := false }

/-- Transcript speakers. -/
inductive Speaker where
  | auditor | pc
  deriving DecidableEq, Repr

/-- An in-memory transcript entry (`_add_transcript`), minus the wall-clock
timestamp, which is outside the model. -/
structure TEntry where
  speaker : Speaker
  text : String
  needleAction : Option String
  toneArm : Option ℚ
  turnNumber : ℕ
  deriving DecidableEq, Repr

/-- Session phases. -/
inductive SessionPhase where
  | setup | startRudiments | processing | endRudiments | complete
  deriving DecidableEq, Repr

/-- The position of a phase in the documented order. -/
def phaseIdx : SessionPhase → ℕ
  | .setup => 0
  | .startRudiments => 1
  | .processing => 2
  | .endRudiments => 3
  | .complete => 4

/-- Session modes. -/
inductive SessionMode where
  | structured | conversational
  deriving DecidableEq, Repr

/-- `START_RUDIMENTS` — 4 questions. -/
def START_RUDIMENTS : List String :=
  ["What are your goals for this session?",
   "Look around the room. Can you have that wall? That ceiling? That floor? Good.",
   "Is there anything you'd like to say to me before we start?",
   "Has anything been suppressed or invalidated since last session?"]

/-- `END_RUDIMENTS` — 5 questions. -/
def END_RUDIMENTS : List String :=
  ["Have your goals for this session been met?",
   "Is there anything you'd like to say to me?",
   "Look around the room. Can you have that wall? That ceiling? That floor? Good.",
   "Has anything been suppressed or invalidated this session?",
   "Is it all right with you if we end this session?"]

/-- `SessionManager` mutable state. The AI collaborator is abstracted per
call: each `process_pc_input` receives an optional AI reply (`none` models
"not configured or the call raised", in which case the code falls back to
the canonical command or default line). -/
structure SessionState where
  mode : SessionMode
  phase : SessionPhase
  r3r : R3RMachine
  currentCommand : String
  turnNumber : ℕ
  transcript : List TEntry
  rudimentIndex : ℕ
  startTime : ℚ
  pauseStart : ℚ
  totalPaused : ℚ
  isPaused : Bool
  deriving Repr

/-- A fresh session manager (`__init__`). -/
def sessionInit (mode : SessionMode) : SessionState :=
  { mode := mode, phase := .setup, r3r := r3rInit, currentCommand := "",
    turnNumber := 0, transcript := [], rudimentIndex := 0, startTime := 0,
    pauseStart := 0, totalPaused := 0, isPaused := false }

/-- `_add_transcript`: append an entry stamped with the current turn number. -/
def addTranscript (s : SessionState) (sp : Speaker) (text : String)
    (na : Option String) (ta : Option ℚ) : SessionState :=
  { s with transcript := s.transcript ++
      [{ speaker := sp, text := text, needleAction := na, toneArm := ta,
         turnNumber := s.turnNumber }] }

/-- `start()`: enter start rudiments and emit the first rudiment. -/
def sessionStart (t : ℚ) (s : SessionState) : SessionState :=
  let s1 := { s with
    startTime := t
    phase := SessionPhase.startRudiments
    rudimentIndex := 0
    currentCommand := START_RUDIMENTS.getD 0 "" }
  addTranscript s1 .auditor s1.currentCommand none none

/-- `_advance_start_rudiments`. -/
def advanceStartRudiments (s : SessionState) : SessionState :=
  if s.rudimentIndex + 1 < START_RUDIMENTS.length then
    let s1 := { s with
      rudimentIndex := s.rudimentIndex + 1
      currentCommand := START_RUDIMENTS.getD (s.rudimentIndex + 1) "" }
    addTranscript s1 .auditor s1.currentCommand none none
  else
    let s1 := { s with
      phase := SessionPhase.processing
      rudimentIndex := 0
      currentCommand := getCommand s.r3r }
    addTranscript s1 .auditor s1.currentCommand none none

/-- `_advance_processing`: transition R3R; use the AI reply when available,
else the canonical command. -/
def advanceProcessing (s : SessionState) (text : String) (fn : Bool)
    (aiReply : Option String) : SessionState :=
  let res := transition s.r3r text fn false false
  let cmd := aiReply.getD res.2
  let s1 := { s with r3r := res.1, currentCommand := cmd }
  addTranscript s1 .auditor cmd none none

/-- `_advance_conversational`: AI reply or the fixed default line. -/
def advanceConversational (s : SessionState) (aiReply : Option String) : SessionState :=
  let cmd := aiReply.getD "Thank you. Tell me more about that."
  let s1 := { s with currentCommand := cmd }
  addTranscript s1 .auditor cmd none none

/-- `_advance_end_rudiments`. -/
def advanceEndRudiments (s : SessionState) : SessionState :=
  if s.rudimentIndex + 1 < END_RUDIMENTS.length then
    let s1 := { s with
      rudimentIndex := s.rudimentIndex + 1
      currentCommand := END_RUDIMENTS.getD (s.rudimentIndex + 1) "" }
    addTranscript s1 .auditor s1.currentCommand none none
  else
    let s1 := { s with
      currentCommand := "That is the end of this session. Thank you."
      phase := SessionPhase.complete }
    addTranscript s1 .auditor s1.currentCommand none none

/-- `process_pc_input`: count the turn, record and echo the PC entry, then
run the phase-specific advance. -/
def processPCInput (s : SessionState) (text : String) (na : Option String)
    (ta : Option ℚ) (fn : Bool) (aiReply : Option String) : SessionState :=
  let s1 := { s with turnNumber := s.turnNumber + 1 }
  let s2 := addTranscript s1 .pc text na ta
  match s2.phase with
  | .startRudiments => advanceStartRudiments s2
  | .processing =>
    match s2.mode with
    | .conversational => advanceConversational s2 aiReply
    | .structured => advanceProcessing s2 text fn aiReply
  | .endRudiments => advanceEndRudiments s2
  | _ => s2

/-- `start_end_rudiments`. -/
def startEndRudiments (s : SessionState) : SessionState :=
  let s1 := { s with
    phase := SessionPhase.endRudiments
    rudimentIndex := 0
    currentCommand := END_RUDIMENTS.getD 0 "" }
  addTranscript s1 .auditor s1.currentCommand none none

/-- `end()`: mark the session complete (persistence is external). -/
def sessionEnd (s : SessionState) : SessionState :=
  { s with phase := SessionPhase.complete }

/-- `pause()`. -/
def sessionPause (t : ℚ) (s : SessionState) : SessionState :=
  if s.isPaused then s else { s with isPaused := true, pauseStart := t }

/-- `resume()`. -/
def sessionResume (t : ℚ) (s : SessionState) : SessionState :=
  if s.isPaused then
    { s with totalPaused := s.totalPaused + (t - s.pauseStart), isPaused := false }
  else s

/-- The operations the router can invoke on a session manager. -/
inductive SessionOp where
  | start (t : ℚ)
  | pcInput (text : String) (na : Option String) (ta : Option ℚ) (fn : Bool)
      (ai : Option String)
  | startEndRud
  | endSession
  | pause (t : ℚ)
  | resume (t : ℚ)

/-- Apply one operation. -/
def applyOp (s : SessionState) : SessionOp → SessionState
  | .start t => sessionStart t s
  | .pcInput text na ta fn ai => processPCInput s text na ta fn ai
  | .startEndRud => startEndRudiments s
  | .endSession => sessionEnd s
  | .pause t => sessionPause t s
  | .resume t => sessionResume t s

/-- Run a session from a fresh manager through a list of operations. -/
def runSession (mode : SessionMode) (ops : List SessionOp) : SessionState :=
  ops.foldl applyOp (sessionInit mode)

/-- Number of pc-spoken entries. -/
def countPC (l : List TEntry) : ℕ :=
  (l.filter (fun e => e.speaker == Speaker.pc)).length

/-- Turn-number discipline relative to a base count `k` of pc turns so far:
each pc entry carries `k+1` and bumps the base; each auditor entry carries
the current base. -/
def turnsOK : ℕ → List TEntry → Prop
  | _, [] => True
  | k, e :: rest =>
    if e.speaker = Speaker.pc then e.turnNumber = k + 1 ∧ turnsOK (k + 1) rest
    else e.turnNumber = k ∧ turnsOK k rest

/-- The session invariant: the transcript is turn-disciplined from base 0 and
`turn_number` equals the number of pc entries. -/
def sessionInv (s : SessionState) : Prop :=
  turnsOK 0 s.transcript ∧ s.turnNumber = countPC s.transcript

/-- Operation list for the C9 witness: start, then one pc input. -/
def c9Ops : List SessionOp :=
  [SessionOp.start 0, SessionOp.pcInput "hello" none none false none]

/-- `BASELINE_ALPHA = 1 / (30 * 62)`. -/
def BASELINE_ALPHA : ℚ := 1 / (30 * 62)

/-- `BASELINE_MIN_SAMPLES = 120`. -/
def BASELINE_MIN_SAMPLES : ℕ := 120

/-- `NEEDLE_SCALE = 2000`. -/
def NEEDLE_SCALE : ℚ := 2000

/-- `BiquadFilter` state. The constructor computes `b0..a2` from the cutoff
via `sin`/`cos`; those trigonometric values are irrational, so the filter is
embedded parametrically in its five coefficients (every theorem quantifies
over them; the DC-normalization identity `b0+b1+b2 = 1+a1+a2`, which the
Butterworth formulas satisfy exactly, appears as an explicit hypothesis
where needed). -/
structure Biquad where
  b0 : ℚ
  b1 : ℚ
  b2 : ℚ
  a1 : ℚ
  a2 : ℚ
  z1 : ℚ := 0
  z2 : ℚ := 0
  initialized : Bool := false
  deriving DecidableEq, Repr

/-- `BiquadFilter.reset`: steady-state initialization for a constant input. -/
def biquadReset (f : Biquad) (value : ℚ) : Biquad :=
  { f with z1 := value * (1 - f.b0), z2 := value * (f.b2 - f.a2),
           initialized := true }

/-- `BiquadFilter.process` (direct form II transposed). -/
def biquadProcess (f : Biquad) (inp : ℚ) : ℚ × Biquad :=
  if f.initialized = false then (inp, biquadReset f inp)
  else
    let out := f.b0 * inp + f.z1
    (out, { f with z1 := f.b1 * inp - f.a1 * out + f.z2,
                   z2 := f.b2 * inp - f.a2 * out })

/-- `SpringMassDamper` state. -/
structure SMD where
  mass : ℚ
  damping : ℚ
  spring : ℚ
  dt : ℚ
  velocity : ℚ := 0
  position : ℚ := 0
  initialized : Bool := false
  deriving DecidableEq, Repr

/-- `SpringMassDamper.step` (symplectic Euler). -/
def smdStep (s : SMD) (inp : ℚ) : ℚ × SMD :=
  if s.initialized = false then
    (inp, { s with position := inp, velocity := 0, initialized := true })
  else
    let accel := (s.spring * (inp - s.position) - s.damping * s.velocity) / s.mass
    let v := s.velocity + s.dt * accel
    let p := s.position + s.dt * v
    (p, { s with velocity := v, position := p })

/-- A fresh biquad with given coefficients (`__init__`, minus the irrational
coefficient computation). -/
def freshBiquad (b0 b1 b2 a1 a2 : ℚ) : Biquad :=
  { b0 := b0, b1 := b1, b2 := b2, a1 := a1, a2 := a2 }

/-- A fresh SMD with the pipeline's parameters (mass 1, damping 14.1,
spring 50, dt 1/62). -/
def freshSMD : SMD := { mass := 1, damping := 14.1, spring := 50, dt := 1 / 62 }

/-- The signal-processing fields of `HIDMeterReader`. -/
structure PipelineState where
  biquad : Biquad
  smd : SMD
  setPoint : Option ℚ := none
  baseline : Option ℚ := none
  baselineSamples : ℕ := 0
  toneArm : ℚ := 2.5
  deriving DecidableEq, Repr

/-- A fresh pipeline (`__init__`). -/
def freshPipeline (b0 b1 b2 a1 a2 : ℚ) : PipelineState :=
  { biquad := freshBiquad b0 b1 b2 a1 a2, smd := freshSMD }

/-- `_process_signal`: biquad → SMD → baseline EMA → auto-SET → needle
position. Returns `((timestamp, position, tone_arm, smooth, raw_adc), state)`. -/
def processSignal (st : PipelineState) (value timestamp : ℚ) :
    (ℚ × ℚ × ℚ × ℚ × ℚ) × PipelineState :=
  let fr := biquadProcess st.biquad value
  let sr := smdStep st.smd fr.1
  let smooth := sr.1
  let baseline := match st.baseline with
    | none => smooth
    | some b => BASELINE_ALPHA * smooth + (1 - BASELINE_ALPHA) * b
  let nSamples := st.baselineSamples + 1
  let setPoint :=
    if st.setPoint = none ∧ BASELINE_MIN_SAMPLES ≤ nSamples then some smooth
    else st.setPoint
  let setRef := match setPoint with
    | some sp => sp
    | none => baseline
  let rawNeedle := (setRef - smooth) / NEEDLE_SCALE
  let needlePos := max (-1) (min 1 rawNeedle)
  let position := 0.5 - needlePos * 0.5
  ((timestamp, position, st.toneArm, smooth, value),
   { st with biquad := fr.2, smd := sr.2, baseline := some baseline,
             baselineSamples := nSamples, setPoint := setPoint })

/-- The values inside the ±200 ms window around the command end. -/
def instantWindowValues (cmdEnd : ℚ) (meterData : List (ℚ × ℚ)) : List ℚ :=
  (meterData.filter (fun p =>
    decide (cmdEnd - 200 / 1000 ≤ p.1) && decide (p.1 ≤ cmdEnd + 200 / 1000))).map
    Prod.snd

/-- `InstantReadDetector.check_for_read` (the classifier's power spectrum is
passed through, as for `classify`). -/
def checkForRead (cmdEnd : ℚ) (meterData : List (ℚ × ℚ)) (power : List ℚ) :
    Option NeedleAction :=
  if meterData.isEmpty then none
  else if (instantWindowValues cmdEnd meterData).length < 10 then none
  else if (classify (instantWindowValues cmdEnd meterData) power).1 = NeedleAction.idle ∨
      (classify (instantWindowValues cmdEnd meterData) power).1 = NeedleAction.freeNeedle
    then none
  else if (classify (instantWindowValues cmdEnd meterData) power).2 < 0.3 then none
  else some (classify (instantWindowValues cmdEnd meterData) power).1

/-! ## Theorems -/

/-- Mean of a list of nonnegative rationals is nonnegative. -/
lemma listMean_nonneg {xs : List ℚ} (h : ∀ x ∈ xs, 0 ≤ x) : 0 ≤ listMean xs := by
  unfold listMean
  exact div_nonneg (List.sum_nonneg h) (Nat.cast_nonneg _)

/-- Population variance is nonnegative. -/
lemma listVar_nonneg (xs : List ℚ) : 0 ≤ listVar xs := by
  unfold listVar
  refine listMean_nonneg ?_
  intro x hx
  rcases List.mem_map.1 hx with ⟨y, _, rfl⟩
  positivity

/-- `min 1 x` stays in `[0,1]` whenever `x` is nonnegative. -/
lemma min_one_mem_unit {x : ℚ} (h : 0 ≤ x) : 0 ≤ min 1 x ∧ min 1 x ≤ 1 :=
  ⟨le_min (by norm_num) h, min_le_left _ _⟩

/-- The fall subclassifier only ever emits the four fall labels. -/
lemma classifyFall_cases (w : List ℚ) (s : ℚ) :
    classifyFall w s = .longFallBlowdown ∨ classifyFall w s = .longFall ∨
      classifyFall w s = .speededFall ∨ classifyFall w s = .fall := by
  unfold classifyFall
  split_ifs <;> simp

/-- The fall subclassifier stays inside the 21-label vocabulary. -/
lemma classifyFall_mem (w : List ℚ) (s : ℚ) :
    classifyFall w s ∈ needleActionVocab := by
  rcases classifyFall_cases w s with h | h | h | h <;> rw [h] <;> decide

/-- **C1.** Every classification is one of the 21 vocabulary labels with a
confidence in `[0,1]`, for every input window and every power spectrum —
covering every branch of the priority cascade and the short-window idle case. -/
theorem classify_label_in_vocab_and_confidence_unit (w power : List ℚ) :
    (classify w power).1 ∈ needleActionVocab ∧
      0 ≤ (classify w power).2 ∧ (classify w power).2 ≤ 1 := by
  unfold classify
  dsimp only
  split_ifs with h1 h2 h3 h4 h5 h6 h7 h8 h9
  · exact ⟨by simp [needleActionVocab], le_refl 0, by norm_num⟩
  · -- rock_slam
    have hamp : (0.3 : ℚ) < listMax w - listMin w := by
      have := h2
      unfold isRockSlam at this
      simp only [Bool.and_eq_true, decide_eq_true_eq] at this
      exact this.1
    refine ⟨by simp [needleActionVocab], ?_⟩
    exact min_one_mem_unit (div_nonneg (by linarith) (by norm_num))
  · -- stuck
    have hv0 : 0 ≤ listVar w := listVar_nonneg w
    refine ⟨by simp [needleActionVocab], ?_, ?_⟩
    · have : listVar w / 0.0005 < 1 := by
        rw [div_lt_one (by norm_num)]
        exact h3
      linarith
    · have : 0 ≤ listVar w / 0.0005 := by positivity
      linarith
  · -- fall
    refine ⟨classifyFall_mem _ _, ?_⟩
    exact min_one_mem_unit (by positivity)
  · -- rise
    refine ⟨by simp [needleActionVocab], ?_⟩
    exact min_one_mem_unit (div_nonneg (by linarith) (by norm_num))
  · -- floating
    exact ⟨by simp [needleActionVocab], by norm_num, by norm_num⟩
  · -- theta blink
    have hp : (3 : ℚ) < periodicityScore (spectrumPairs w.length power) 4.5 11 := by
      have := h7
      unfold thetaCond at this
      simp only [Bool.and_eq_true, decide_eq_true_eq] at this
      exact this.1.2
    refine ⟨by simp [needleActionVocab], ?_⟩
    exact min_one_mem_unit (by linarith)
  · -- stage four
    have hp : (3 : ℚ) < periodicityScore (spectrumPairs w.length power) 0.8 1.5 := by
      have := h8
      unfold stageFourCond at this
      simp only [Bool.and_eq_true, decide_eq_true_eq] at this
      exact this.1.2
    refine ⟨by simp [needleActionVocab], ?_⟩
    exact min_one_mem_unit (by linarith)
  · -- dirty needle
    exact ⟨by simp [needleActionVocab], by norm_num, by norm_num⟩
  · -- free needle
    exact ⟨by simp [needleActionVocab], by norm_num, by norm_num⟩

/-- The seed of a `max`-fold is a lower bound of the result. -/
lemma le_foldl_max (l : List ℚ) (a : ℚ) : a ≤ l.foldl max a := by
  induction l generalizing a with
  | nil => exact le_refl a
  | cons b l ih => exact le_trans (le_max_left a b) (ih (max a b))

/-- Every member of a list is bounded by any `max`-fold over it. -/
lemma mem_le_foldl_max {l : List ℚ} {x : ℚ} (a : ℚ) (hx : x ∈ l) :
    x ≤ l.foldl max a := by
  induction l generalizing a with
  | nil => cases hx
  | cons b l ih =>
    rcases List.mem_cons.1 hx with rfl | hx
    · exact le_trans (le_max_right a x) (le_foldl_max l (max a x))
    · exact ih (max a b) hx

/-- `listMax` bounds every member. -/
lemma le_listMax {l : List ℚ} {x : ℚ} (hx : x ∈ l) : x ≤ listMax l :=
  mem_le_foldl_max _ hx

/-- A `max`-fold is the seed or a member. -/
lemma foldl_max_mem (l : List ℚ) (a : ℚ) : l.foldl max a = a ∨ l.foldl max a ∈ l := by
  induction l generalizing a with
  | nil => exact Or.inl rfl
  | cons b l ih =>
    rcases ih (max a b) with h | h
    · rcases max_choice a b with hm | hm
      · exact Or.inl (by rw [List.foldl_cons, h, hm])
      · exact Or.inr (by rw [List.foldl_cons, h, hm]; exact List.mem_cons_self b l)
    · exact Or.inr (List.mem_cons_of_mem b h)

/-- `listMax` of a nonempty list is a member. -/
lemma listMax_mem {l : List ℚ} (h : l ≠ []) : listMax l ∈ l := by
  rcases foldl_max_mem l (l.headD 0) with hm | hm
  · rw [listMax, hm]
    cases l with
    | nil => exact absurd rfl h
    | cons a l => exact List.mem_cons_self a l
  · exact hm

/-- The peak deviation is nonnegative on a nonempty reaction window. -/
lemma bmPeak_nonneg {values : List ℚ} (b : ℚ) (h : values ≠ []) :
    0 ≤ bmPeak values b := by
  cases values with
  | nil => exact absurd rfl h
  | cons v rest =>
    have hmem : |v - b| ∈ bmDevs (v :: rest) b := by
      unfold bmDevs
      exact List.mem_map_of_mem _ (List.mem_cons_self v rest)
    exact le_trans (abs_nonneg _) (le_listMax hmem)

/-- Summing a `0/1` indicator map counts the entries satisfying the predicate. -/
lemma indicator_sum_eq_filter_length (l : List ℚ) (c : ℚ) :
    (l.map (fun d => if c < d then (1 : ℚ) else 0)).sum
      = (((l.filter (fun d => decide (c < d))).length : ℚ)) := by
  induction l with
  | nil => simp
  | cons d l ih =>
    by_cases h : c < d
    · simp [h, ih]
      ring
    · simp [h, ih]

/-- **C4.** A `feed_signal` call whose timestamp makes the pending question's
reaction window elapse finalizes it exactly once: exactly one record is
appended and the pending slot is cleared; with no pending question,
`feed_signal` never touches the history; and both `feed_signal` and
`question_dropped` only ever extend the history, so finalized records are
never mutated. -/
theorem feedSignal_finalizes_exactly_once (st : ChargeTracker) (ts v : ℚ)
    (q : QuestionCharge) :
    (st.currentQuestion = some q → q.reactionWindowMs ≤ (ts - q.questionTime) * 1000 →
      (feedSignal st ts v).questions
          = st.questions ++ [finalizeRecord q (dequeAppend st.signalBuffer (ts, v))] ∧
        (feedSignal st ts v).currentQuestion = none) ∧
    (st.currentQuestion = none →
      (feedSignal st ts v).questions = st.questions ∧
        (feedSignal st ts v).currentQuestion = none) ∧
    (∃ extra, (feedSignal st ts v).questions = st.questions ++ extra) ∧
    (∀ now text, ∃ extra, (questionDropped st now text).questions = st.questions ++ extra) := by
  refine ⟨?_, ?_, ?_, ?_⟩
  · intro hq hw
    simp [feedSignal, hq, finalizeQuestion, hw]
  · intro hq
    simp [feedSignal, hq]
  · cases hq : st.currentQuestion with
    | none => exact ⟨[], by simp [feedSignal, hq]⟩
    | some q0 =>
      by_cases hw : q0.reactionWindowMs ≤ (ts - q0.questionTime) * 1000
      · exact ⟨[finalizeRecord q0 (dequeAppend st.signalBuffer (ts, v))],
          by simp [feedSignal, hq, finalizeQuestion, hw]⟩
      · exact ⟨[], by simp [feedSignal, hq, hw]⟩
  · intro now text
    cases hq : st.currentQuestion with
    | none => exact ⟨[], by simp [questionDropped, finalizeQuestion, hq]⟩
    | some q0 =>
      exact ⟨[finalizeRecord q0 st.signalBuffer],
        by simp [questionDropped, finalizeQuestion, hq]⟩

/-- Witness for C4 at a concrete tracker: one pending question with window
3000 ms, finalized by a sample at `t = 3`. -/
theorem feedSignal_finalizes_exactly_once_witness :
    c4St.currentQuestion = some c4Q ∧
    (feedSignal c4St 3 0).questions = [finalizeRecord c4Q (dequeAppend [] (3, 0))] := by
  refine ⟨rfl, ?_⟩
  have h := (feedSignal_finalizes_exactly_once c4St 3 0 c4Q).1 rfl
    (by simp [c4Q]; norm_num)
  simpa [c4St] using h.1

/-- On a non-body-movement record whose delta/peak fields were filled from the
reaction values, the code's score equals the spec formula with truncation. -/
lemma computeChargeScore_eq_spec (q1 : QuestionCharge) (values : List ℚ)
    (hvals : values ≠ [])
    (hdelta : q1.signalDelta = listMean values - q1.baselineSignal)
    (hpeak : q1.peakDeviation = bmPeak values q1.baselineSignal)
    (hb : q1.bodyMovement = false) :
    computeChargeScore q1 values = specChargeScoreTrunc values q1.baselineSignal := by
  have hdevlen : (bmDevs values q1.baselineSignal).length = values.length := by
    simp [bmDevs]
  have hsus :
      (if 0 < bmPeak values q1.baselineSignal then
        listMean ((bmDevs values q1.baselineSignal).map
          (fun d => if bmPeak values q1.baselineSignal * 0.2 < d then (1 : ℚ) else 0))
       else 0)
      = specSustainedFraction values q1.baselineSignal := by
    by_cases hp : 0 < bmPeak values q1.baselineSignal
    · rw [if_pos hp]
      unfold specSustainedFraction listMean
      rw [indicator_sum_eq_filter_length, List.length_map, hdevlen]
    · rw [if_neg hp]
      have hzero : bmPeak values q1.baselineSignal = 0 :=
        le_antisymm (le_of_not_lt hp) (bmPeak_nonneg q1.baselineSignal hvals)
      have hfil : (bmDevs values q1.baselineSignal).filter
          (fun d => decide (bmPeak values q1.baselineSignal * 0.2 < d)) = [] := by
        rw [List.filter_eq_nil_iff]
        intro d hd
        have hd1 : d ≤ bmPeak values q1.baselineSignal := le_listMax hd
        simp only [decide_eq_true_eq, not_lt]
        rw [hzero] at hd1 ⊢
        linarith
      unfold specSustainedFraction
      rw [hfil]
      simp
  unfold computeChargeScore specChargeScoreTrunc
  rw [hb]
  simp only [Bool.false_eq_true, if_false]
  have harg :
      ((min 1 (|q1.signalDelta| / 0.03) * 0.40 + min 1 (q1.peakDeviation / 0.05) * 0.30 +
        (if 0 < q1.peakDeviation then
          listMean ((bmDevs values q1.baselineSignal).map
            (fun d => if q1.peakDeviation * 0.2 < d then (1 : ℚ) else 0))
         else 0) * 0.20 + 0.10) * 100)
      = specRawScore values q1.baselineSignal * 100 := by
    rw [hdelta, hpeak, hsus]
    unfold specRawScore
    ring
  rw [harg]

/-- **C2 (amended).** For every finalized question with at least 20 reaction
samples: if no body movement was detected, the charge score is the weighted
formula `0.40·min(1,|signal_delta|/0.03) + 0.30·min(1,peak/0.05) +
0.20·sustained_fraction + 0.10`, scaled to 0–100, clamped to `[0,100]` and
truncated toward zero (Python `int()`, not round-to-nearest); if body
movement was detected the score is 0. -/
theorem charge_score_formula (q : QuestionCharge) (buf : List (ℚ × ℚ))
    (h20 : 20 ≤ (reactionSamples q buf).length) :
    ((finalizeRecord q buf).bodyMovement = true → (finalizeRecord q buf).chargeScore = 0) ∧
    ((finalizeRecord q buf).bodyMovement = false →
      (finalizeRecord q buf).chargeScore
        = specChargeScoreTrunc ((reactionSamples q buf).map Prod.snd) q.baselineSignal) := by
  have hnlt : ¬ (reactionSamples q buf).length < 20 := by omega
  have hvals : (reactionSamples q buf).map Prod.snd ≠ [] := by
    have : ((reactionSamples q buf).map Prod.snd).length = (reactionSamples q buf).length := by
      simp
    intro hnil
    rw [hnil] at this
    simp at this
    omega
  unfold finalizeRecord
  dsimp only
  rw [if_neg hnlt]
  constructor
  · intro hb
    dsimp only at hb ⊢
    unfold computeChargeScore
    rw [hb]
    simp
  · intro hb
    dsimp only at hb ⊢
    exact computeChargeScore_eq_spec _ _ hvals rfl rfl hb

/-- The deviation list of a nonempty window is nonempty. -/
lemma bmDevs_ne_nil {values : List ℚ} (b : ℚ) (h : values ≠ []) :
    bmDevs values b ≠ [] := by
  unfold bmDevs
  intro hc
  exact h (List.map_eq_nil_iff.mp hc)

/-- The deviation list has the window's length. -/
lemma bmDevs_length (values : List ℚ) (b : ℚ) :
    (bmDevs values b).length = values.length := by
  simp [bmDevs]

/-- The peak index is in range for a nonempty window. -/
lemma bmPeakIdx_lt {values : List ℚ} (b : ℚ) (h : values ≠ []) :
    bmPeakIdx values b < (bmDevs values b).length := by
  unfold bmPeakIdx idxOfMax
  apply List.findIdx_lt_length_of_exists
  exact ⟨listMax (bmDevs values b), listMax_mem (bmDevs_ne_nil b h), by simp⟩

/-- The deviation at the peak index is the peak deviation. -/
lemma bmDevs_peakIdx_eq {values : List ℚ} (b : ℚ) (h : values ≠ []) :
    (bmDevs values b).getD (bmPeakIdx values b) 0 = bmPeak values b := by
  have hw : (bmDevs values b).findIdx (fun x => x == listMax (bmDevs values b))
      < (bmDevs values b).length := bmPeakIdx_lt b h
  have hp := List.findIdx_getElem (w := hw)
  simp only [beq_iff_eq] at hp
  rw [bmPeakIdx, idxOfMax, List.getD_eq_getElem _ 0 hw, hp]
  rfl

/-- `decayScan` succeeds iff some scanned pair lies within 200 ms of the peak
time and has deviation below the threshold — provided the scanned times are
nondecreasing (which justifies the loop's early `break`). -/
lemma decayScan_iff (l : List (ℚ × ℚ)) (tp th : ℚ)
    (hmono : List.Pairwise (fun a b : ℚ × ℚ => a.2 ≤ b.2) l) :
    decayScan l tp th = true ↔
      ∃ i, ∃ h : i < l.length, ((l.get ⟨i, h⟩).2 - tp) * 1000 ≤ 200 ∧
        (l.get ⟨i, h⟩).1 < th := by
  induction l with
  | nil => simp [decayScan]
  | cons hd rest ih =>
    obtain ⟨hhead, htail⟩ := List.pairwise_cons.1 hmono
    obtain ⟨d, t⟩ := hd
    by_cases h1 : 200 < (t - tp) * 1000
    · rw [show decayScan ((d, t) :: rest) tp th = false by simp [decayScan, h1]]
      constructor
      · intro h; cases h
      · rintro ⟨i, hi, hle, _⟩
        exfalso
        cases i with
        | zero => simp at hle; linarith
        | succ k =>
          have hk : k < rest.length := by simpa using hi
          have hmem : rest.get ⟨k, hk⟩ ∈ rest := List.get_mem rest k hk
          have := hhead _ hmem
          simp only [List.get_cons_succ] at hle
          linarith
    · by_cases h2 : d < th
      · rw [show decayScan ((d, t) :: rest) tp th = true by simp [decayScan, h1, h2]]
        constructor
        · intro _
          exact ⟨0, by simp, by simpa using not_lt.1 h1, by simpa using h2⟩
        · intro _; rfl
      · rw [show decayScan ((d, t) :: rest) tp th = decayScan rest tp th by
          simp [decayScan, h1, h2]]
        rw [ih htail]
        constructor
        · rintro ⟨k, hk, hle, hd2⟩
          exact ⟨k + 1, by simpa using Nat.succ_lt_succ hk, by simpa using hle,
            by simpa using hd2⟩
        · rintro ⟨i, hi, hle, hd2⟩
          cases i with
          | zero => exact absurd hd2 h2
          | succ k =>
            exact ⟨k, by simpa using hi, by simpa using hle, by simpa using hd2⟩

/-- The decay loop is equivalent to the claim's declarative decay condition:
some sample strictly after the peak, within 200 ms of it, deviates by less
than 30 % of the peak. -/
lemma bmDecay_iff (values ts : List ℚ) (b : ℚ)
    (hne : values ≠ []) (hts : ts.length = values.length)
    (hsorted : List.Pairwise (· ≤ ·) ts)
    (hpk : 0.15 ≤ bmPeak values b) :
    bmDecay values ts b = true ↔
      ∃ j, bmPeakIdx values b < j ∧ j < values.length ∧
        (ts.getD j 0 - ts.getD (bmPeakIdx values b) 0) * 1000 ≤ 200 ∧
        (bmDevs values b).getD j 0 < bmPeak values b * 0.3 := by
  have hplt : bmPeakIdx values b < values.length := by
    have h := bmPeakIdx_lt b hne
    rwa [bmDevs_length] at h
  by_cases hguard : bmPeakIdx values b < values.length - 1
  · have hrw : bmDecay values ts b =
        decayScan (((bmDevs values b).drop (bmPeakIdx values b)).zip
          (ts.drop (bmPeakIdx values b))) (ts.getD (bmPeakIdx values b) 0)
          (bmPeak values b * 0.3) := by
      unfold bmDecay
      rw [if_pos hguard]
    set Z := ((bmDevs values b).drop (bmPeakIdx values b)).zip
      (ts.drop (bmPeakIdx values b)) with hZ
    have hZlen : Z.length = values.length - bmPeakIdx values b := by
      simp [hZ, List.length_zip, List.length_drop, bmDevs_length, hts]
    have hZget : ∀ (i : ℕ) (hi : i < Z.length),
        Z.get ⟨i, hi⟩ = ((bmDevs values b).getD (bmPeakIdx values b + i) 0,
          ts.getD (bmPeakIdx values b + i) 0) := by
      intro i hi
      have hiz := hi
      rw [hZlen] at hiz
      have hib1 : bmPeakIdx values b + i < (bmDevs values b).length := by
        rw [bmDevs_length]; omega
      have hib2 : bmPeakIdx values b + i < ts.length := by rw [hts]; omega
      rw [List.get_eq_getElem]
      simp only [hZ, List.getElem_zip, List.getElem_drop]
      rw [List.getD_eq_getElem _ 0 hib1, List.getD_eq_getElem _ 0 hib2]
    have hdropSorted : List.Pairwise (· ≤ ·) (ts.drop (bmPeakIdx values b)) :=
      List.Pairwise.sublist (List.drop_sublist _ _) hsorted
    have hmono2 : List.Pairwise (fun a b : ℚ × ℚ => a.2 ≤ b.2) Z := by
      rw [List.pairwise_iff_getElem] at hdropSorted ⊢
      intro i j hi hj hij
      have hi0 := hi
      have hj0 := hj
      rw [hZlen] at hi0 hj0
      have hi2 : i < (ts.drop (bmPeakIdx values b)).length := by
        rw [List.length_drop, hts]; omega
      have hj2 : j < (ts.drop (bmPeakIdx values b)).length := by
        rw [List.length_drop, hts]; omega
      have hout := hdropSorted i j hi2 hj2 hij
      simp only [hZ, List.getElem_zip]
      exact hout
    rw [hrw, decayScan_iff _ _ _ hmono2]
    constructor
    · rintro ⟨i, hi, hle, hdev⟩
      rw [hZget i hi] at hle hdev
      dsimp only at hle hdev
      have hi0 : i ≠ 0 := by
        intro h0
        subst h0
        rw [Nat.add_zero, bmDevs_peakIdx_eq b hne] at hdev
        nlinarith
      have hilen := hi
      rw [hZlen] at hilen
      exact ⟨bmPeakIdx values b + i, by omega, by omega, hle, hdev⟩
    · rintro ⟨j, hj1, hj2, hle, hdev⟩
      have hij : j - bmPeakIdx values b < Z.length := by rw [hZlen]; omega
      have hadd : bmPeakIdx values b + (j - bmPeakIdx values b) = j := by omega
      refine ⟨j - bmPeakIdx values b, hij, ?_, ?_⟩
      · rw [hZget _ hij]
        dsimp only
        rw [hadd]
        exact hle
      · rw [hZget _ hij]
        dsimp only
        rw [hadd]
        exact hdev
  · have hrw : bmDecay values ts b = false := by
      unfold bmDecay
      rw [if_neg hguard]
    rw [hrw]
    constructor
    · intro h; cases h
    · rintro ⟨j, hj1, hj2, _, _⟩
      exfalso
      omega

/-- **C3 (amended).** For every reaction window of at least 10 samples with
time-aligned, nondecreasing timestamps, the detector classifies body movement
iff: the peak deviation is **at least** 0.15 (the code admits exactly 0.15;
the claim's strict "exceeds" is the one correction), the onset time is under
50 ms, and the deviation returns to within 30 % of the peak within 200 ms
after the peak. -/
theorem body_movement_iff (values ts : List ℚ) (b : ℚ)
    (hlen : 10 ≤ values.length) (hts : ts.length = values.length)
    (hsorted : List.Pairwise (· ≤ ·) ts) :
    isBodyMovement values ts b = true ↔ bodyMovementSpec values ts b := by
  have hne : values ≠ [] := by
    intro hc
    rw [hc] at hlen
    simp at hlen
  unfold isBodyMovement
  rw [if_neg (by omega)]
  by_cases hpk : bmPeak values b < 0.15
  · rw [if_pos hpk]
    constructor
    · intro h; cases h
    · intro hspec
      exact absurd hpk (not_lt.2 hspec.1)
  · rw [if_neg hpk]
    have hpk2 : (0.15 : ℚ) ≤ bmPeak values b := not_lt.1 hpk
    rw [Bool.and_eq_true, decide_eq_true_eq,
      bmDecay_iff values ts b hne hts hsorted hpk2]
    unfold bodyMovementSpec
    constructor
    · rintro ⟨h1, h2⟩
      exact ⟨hpk2, h1, h2⟩
    · rintro ⟨_, h1, h2⟩
      exact ⟨h1, h2⟩

/-- **C5.** At `earlier_similar`, a response containing "yes" increments
`chain_depth`, resets `abcd_count` to 0, and restarts the 9-step sequence at
`locate_incident`; any other response advances to `chain_ep`. Concretely, the
15-transition scenario (9-step sequence, A-B-C-D, "more solid", "yes") ends
with `chain_depth = 1` at `locate_incident`. -/
theorem r3r_earlier_similar_yes (m : R3RMachine) (resp : String) (fn cog vg : Bool)
    (hst : m.state = R3RState.earlierSimilar) (hinit : m.inInitialSequence = false) :
    (pyContains (responseLower resp) "yes".toList = true →
      (transition m resp fn cog vg).1.ctx.chainDepth = m.ctx.chainDepth + 1 ∧
      (transition m resp fn cog vg).1.ctx.abcdCount = 0 ∧
      (transition m resp fn cog vg).1.state = R3RState.locateIncident ∧
      (transition m resp fn cog vg).1.inInitialSequence = true ∧
      (transition m resp fn cog vg).1.initialStep = 0) ∧
    (pyContains (responseLower resp) "yes".toList = false →
      (transition m resp fn cog vg).1.state = R3RState.chainEP) ∧
    (c5Trace.ctx.chainDepth = 1 ∧ c5Trace.state = R3RState.locateIncident) := by
  refine ⟨?_, ?_, rfl, rfl⟩
  · intro hyes
    have hyes2 : pyContains (responseLower resp) ['y', 'e', 's'] = true := by
      simpa using hyes
    simp [transition, hinit, hst, hyes2]
  · intro hno
    have hno2 : pyContains (responseLower resp) ['y', 'e', 's'] = false := by
      simpa using hno
    simp [transition, hinit, hst, hno2, checkEP]

/-- Witness for C5: a machine sitting at `earlier_similar`, answered "yes". -/
theorem r3r_earlier_similar_yes_witness :
    c5M.state = R3RState.earlierSimilar ∧
    (transition c5M "yes" false false false).1.ctx.chainDepth = 1 := by
  refine ⟨rfl, ?_⟩
  have h := (r3r_earlier_similar_yes c5M "yes" false false false rfl rfl).1 (by rfl)
  simpa using h.1

/-- **C6.** From `chain_ep`: with flow 1 current and flow 2 uncompleted, the
machine passes through `check_next_flow` and advances to flow 2; with flow 2
current and flow 3 uncompleted it advances to flow 3; with flow 3 current it
terminates in `item_complete`. Every flow advance resets the three
end-phenomena booleans, `abcd_count`, `chain_depth`, and the 9-step pointer
back to `locate_incident`. -/
theorem r3r_chain_ep_flow_rotation (m : R3RMachine) (r1 r2 : String)
    (f1 c1 v1 f2 c2 v2 : Bool)
    (hst : m.state = R3RState.chainEP) (hinit : m.inInitialSequence = false) :
    (m.ctx.currentFlow = R3RFlow.flow1 → R3RFlow.flow2 ∉ m.ctx.flowsCompleted →
      (transition m r1 f1 c1 v1).1.state = R3RState.checkNextFlow ∧
      (r3rStep2 m r1 r2 f1 c1 v1 f2 c2 v2).ctx.currentFlow = R3RFlow.flow2 ∧
      (r3rStep2 m r1 r2 f1 c1 v1 f2 c2 v2).ctx.fnDetected = false ∧
      (r3rStep2 m r1 r2 f1 c1 v1 f2 c2 v2).ctx.cognitionNoted = false ∧
      (r3rStep2 m r1 r2 f1 c1 v1 f2 c2 v2).ctx.vgisPresent = false ∧
      (r3rStep2 m r1 r2 f1 c1 v1 f2 c2 v2).ctx.abcdCount = 0 ∧
      (r3rStep2 m r1 r2 f1 c1 v1 f2 c2 v2).ctx.chainDepth = 0 ∧
      (r3rStep2 m r1 r2 f1 c1 v1 f2 c2 v2).inInitialSequence = true ∧
      (r3rStep2 m r1 r2 f1 c1 v1 f2 c2 v2).initialStep = 0 ∧
      (r3rStep2 m r1 r2 f1 c1 v1 f2 c2 v2).state = R3RState.locateIncident) ∧
    (m.ctx.currentFlow = R3RFlow.flow2 → R3RFlow.flow3 ∉ m.ctx.flowsCompleted →
      (transition m r1 f1 c1 v1).1.state = R3RState.checkNextFlow ∧
      (r3rStep2 m r1 r2 f1 c1 v1 f2 c2 v2).ctx.currentFlow = R3RFlow.flow3 ∧
      (r3rStep2 m r1 r2 f1 c1 v1 f2 c2 v2).ctx.fnDetected = false ∧
      (r3rStep2 m r1 r2 f1 c1 v1 f2 c2 v2).ctx.cognitionNoted = false ∧
      (r3rStep2 m r1 r2 f1 c1 v1 f2 c2 v2).ctx.vgisPresent = false ∧
      (r3rStep2 m r1 r2 f1 c1 v1 f2 c2 v2).ctx.abcdCount = 0 ∧
      (r3rStep2 m r1 r2 f1 c1 v1 f2 c2 v2).ctx.chainDepth = 0 ∧
      (r3rStep2 m r1 r2 f1 c1 v1 f2 c2 v2).inInitialSequence = true ∧
      (r3rStep2 m r1 r2 f1 c1 v1 f2 c2 v2).initialStep = 0 ∧
      (r3rStep2 m r1 r2 f1 c1 v1 f2 c2 v2).state = R3RState.locateIncident) ∧
    (m.ctx.currentFlow = R3RFlow.flow3 →
      (transition m r1 f1 c1 v1).1.state = R3RState.itemComplete) := by
  refine ⟨?_, ?_, ?_⟩
  · intro hcur h2
    simp [transition, r3rStep2, checkNextFlowStep, advanceFlow, hst, hinit, hcur, h2,
      List.mem_append]
  · intro hcur h3
    simp [transition, r3rStep2, checkNextFlowStep, advanceFlow, hst, hinit, hcur, h3,
      List.mem_append]
  · intro hcur
    simp [transition, checkNextFlowStep, hst, hinit, hcur, List.mem_append]

/-- Witness for C6: from `chain_ep` on flow 1 with nothing completed, the
machine passes `check_next_flow` and lands on flow 2. -/
theorem r3r_chain_ep_flow_rotation_witness :
    c6M.state = R3RState.chainEP ∧
    (transition c6M "" false false false).1.state = R3RState.checkNextFlow ∧
    (r3rStep2 c6M "" "" false false false false false false).ctx.currentFlow
      = R3RFlow.flow2 := by
  have h := (r3r_chain_ep_flow_rotation c6M "" "" false false false false false false
    rfl rfl).1 rfl (by simp [c6M, r3rInit])
  exact ⟨rfl, h.1, h.2.1⟩

/-- **C8 (amended).** The phase never moves backward: `process_pc_input`
advances it by at most one position in the order SETUP → START_RUDIMENTS →
PROCESSING → END_RUDIMENTS → COMPLETE; `start` from SETUP and
`start_end_rudiments` from PROCESSING advance exactly one position;
`pause`/`resume` leave it unchanged; `end` jumps forward to COMPLETE from
any phase (cancellation may skip phases — the correction to the claim). -/
theorem session_phase_transitions (s : SessionState) (t : ℚ) (text : String)
    (na : Option String) (ta : Option ℚ) (fn : Bool) (ai : Option String) :
    (phaseIdx s.phase ≤ phaseIdx (processPCInput s text na ta fn ai).phase ∧
      phaseIdx (processPCInput s text na ta fn ai).phase ≤ phaseIdx s.phase + 1) ∧
    (s.phase = SessionPhase.setup →
      (sessionStart t s).phase = SessionPhase.startRudiments) ∧
    (s.phase = SessionPhase.processing →
      (startEndRudiments s).phase = SessionPhase.endRudiments) ∧
    ((sessionEnd s).phase = SessionPhase.complete ∧
      phaseIdx s.phase ≤ phaseIdx (sessionEnd s).phase) ∧
    ((sessionPause t s).phase = s.phase ∧ (sessionResume t s).phase = s.phase) := by
  refine ⟨?_, ?_, ?_, ?_, ?_⟩
  · cases hp : s.phase with
    | setup => simp [processPCInput, addTranscript, hp]
    | startRudiments =>
      by_cases hidx : s.rudimentIndex + 1 < START_RUDIMENTS.length
      · simp [processPCInput, addTranscript, advanceStartRudiments, hp, hidx]
      · simp [processPCInput, addTranscript, advanceStartRudiments, hp, hidx, phaseIdx]
    | processing =>
      cases hm : s.mode with
      | conversational =>
        simp [processPCInput, addTranscript, advanceConversational, hp, hm]
      | structured =>
        simp [processPCInput, addTranscript, advanceProcessing, hp, hm]
    | endRudiments =>
      by_cases hidx : s.rudimentIndex + 1 < END_RUDIMENTS.length
      · simp [processPCInput, addTranscript, advanceEndRudiments, hp, hidx]
      · simp [processPCInput, addTranscript, advanceEndRudiments, hp, hidx, phaseIdx]
    | complete => simp [processPCInput, addTranscript, hp]
  · intro _
    simp [sessionStart, addTranscript]
  · intro _
    simp [startEndRudiments, addTranscript]
  · refine ⟨rfl, ?_⟩
    cases s.phase <;> simp [sessionEnd, phaseIdx]
  · constructor
    · unfold sessionPause
      split_ifs <;> rfl
    · unfold sessionResume
      split_ifs <;> rfl

/-- Witness for C8: a fresh structured session, started from SETUP. -/
theorem session_phase_transitions_witness :
    (sessionInit SessionMode.structured).phase = SessionPhase.setup ∧
    (sessionStart 0 (sessionInit SessionMode.structured)).phase
      = SessionPhase.startRudiments := by
  refine ⟨rfl, ?_⟩
  exact (session_phase_transitions (sessionInit SessionMode.structured)
    0 "" none none false none).2.1 rfl

/-- Counterexample to C8 as stated: `end()` right after `start()` jumps the
phase from START_RUDIMENTS (index 1) straight to COMPLETE (index 4),
skipping PROCESSING and END_RUDIMENTS, so "no operation skips a phase" is
false on the code. -/
theorem session_end_skip_counterexample :
    (sessionStart 0 (sessionInit SessionMode.structured)).phase
      = SessionPhase.startRudiments ∧
    (sessionEnd (sessionStart 0 (sessionInit SessionMode.structured))).phase
      = SessionPhase.complete ∧
    ¬ (phaseIdx (sessionEnd (sessionStart 0 (sessionInit SessionMode.structured))).phase
        ≤ phaseIdx (sessionStart 0 (sessionInit SessionMode.structured)).phase + 1) := by
  exact ⟨rfl, rfl, by decide⟩

/-- Appending a pc entry with the next turn number preserves the discipline. -/
lemma turnsOK_append_pc (l : List TEntry) : ∀ (k : ℕ) (e : TEntry),
    turnsOK k l → e.speaker = Speaker.pc → e.turnNumber = k + countPC l + 1 →
    turnsOK k (l ++ [e]) := by
  induction l with
  | nil =>
    intro k e _ hsp hturn
    simp only [List.nil_append, turnsOK, if_pos hsp]
    simp [countPC] at hturn
    exact ⟨hturn, trivial⟩
  | cons a rest ih =>
    intro k e h hok hturn
    rw [List.cons_append]
    by_cases ha : a.speaker = Speaker.pc
    · simp only [turnsOK, if_pos ha] at h ⊢
      have hc : countPC (a :: rest) = countPC rest + 1 := by simp [countPC, ha]
      rw [hc] at hturn
      exact ⟨h.1, ih (k + 1) e h.2 hok (by omega)⟩
    · simp only [turnsOK, if_neg ha] at h ⊢
      have hc : countPC (a :: rest) = countPC rest := by simp [countPC, ha]
      rw [hc] at hturn
      exact ⟨h.1, ih k e h.2 hok hturn⟩

/-- Appending an auditor entry with the current pc count preserves the
discipline. -/
lemma turnsOK_append_aud (l : List TEntry) : ∀ (k : ℕ) (e : TEntry),
    turnsOK k l → e.speaker ≠ Speaker.pc → e.turnNumber = k + countPC l →
    turnsOK k (l ++ [e]) := by
  induction l with
  | nil =>
    intro k e _ hsp hturn
    simp only [List.nil_append, turnsOK, if_neg hsp]
    simp [countPC] at hturn
    exact ⟨hturn, trivial⟩
  | cons a rest ih =>
    intro k e h hok hturn
    rw [List.cons_append]
    by_cases ha : a.speaker = Speaker.pc
    · simp only [turnsOK, if_pos ha] at h ⊢
      have hc : countPC (a :: rest) = countPC rest + 1 := by simp [countPC, ha]
      rw [hc] at hturn
      exact ⟨h.1, ih (k + 1) e h.2 hok (by omega)⟩
    · simp only [turnsOK, if_neg ha] at h ⊢
      have hc : countPC (a :: rest) = countPC rest := by simp [countPC, ha]
      rw [hc] at hturn
      exact ⟨h.1, ih k e h.2 hok hturn⟩

/-- Disciplined turn numbers are bounded below by the base and nondecreasing. -/
lemma turnsOK_bound_chain (l : List TEntry) : ∀ k, turnsOK k l →
    (∀ e ∈ l, k ≤ e.turnNumber) ∧
      List.Chain' (· ≤ ·) (l.map TEntry.turnNumber) := by
  induction l with
  | nil => intro k _; exact ⟨by simp, by simp⟩
  | cons a rest ih =>
    intro k h
    by_cases ha : a.speaker = Speaker.pc
    · simp only [turnsOK, if_pos ha] at h
      obtain ⟨hb, hc⟩ := ih (k + 1) h.2
      refine ⟨?_, ?_⟩
      · intro e he
        rcases List.mem_cons.1 he with rfl | he
        · omega
        · have := hb e he; omega
      · rw [List.map_cons]
        refine List.chain'_cons'.2 ⟨?_, hc⟩
        intro b hbmem
        cases rest with
        | nil => simp at hbmem
        | cons r rr =>
          simp only [List.map_cons, List.head?_cons, Option.mem_def,
            Option.some.injEq] at hbmem
          have := hb r (List.mem_cons_self r rr)
          omega
    · simp only [turnsOK, if_neg ha] at h
      obtain ⟨hb, hc⟩ := ih k h.2
      refine ⟨?_, ?_⟩
      · intro e he
        rcases List.mem_cons.1 he with rfl | he
        · omega
        · exact hb e he
      · rw [List.map_cons]
        refine List.chain'_cons'.2 ⟨?_, hc⟩
        intro b hbmem
        cases rest with
        | nil => simp at hbmem
        | cons r rr =>
          simp only [List.map_cons, List.head?_cons, Option.mem_def,
            Option.some.injEq] at hbmem
          have := hb r (List.mem_cons_self r rr)
          omega

/-- Under the discipline, the pc entries carry exactly `k+1, k+2, …`. -/
lemma turnsOK_pc_turns (l : List TEntry) : ∀ k, turnsOK k l →
    ((l.filter (fun e => e.speaker == Speaker.pc)).map TEntry.turnNumber)
      = List.range' (k + 1) (countPC l) := by
  induction l with
  | nil => intro k _; simp [countPC]
  | cons a rest ih =>
    intro k h
    by_cases ha : a.speaker = Speaker.pc
    · simp only [turnsOK, if_pos ha] at h
      have hc : countPC (a :: rest) = countPC rest + 1 := by simp [countPC, ha]
      rw [hc, List.filter_cons_of_pos (by simp [ha]), List.map_cons,
        ih (k + 1) h.2, h.1, List.range'_succ]
    · simp only [turnsOK, if_neg ha] at h
      have hc : countPC (a :: rest) = countPC rest := by simp [countPC, ha]
      rw [hc, List.filter_cons_of_neg (by simp [ha]), ih k h.2]

/-- Under the discipline, every auditor entry carries the number of pc
entries inserted before it. -/
lemma turnsOK_auditor_turn (l : List TEntry) : ∀ k i (h : i < l.length),
    turnsOK k l → (l.get ⟨i, h⟩).speaker ≠ Speaker.pc →
    (l.get ⟨i, h⟩).turnNumber = k + countPC (l.take i) := by
  induction l with
  | nil => intro k i h; simp at h
  | cons a rest ih =>
    intro k i h hok hsp
    by_cases ha : a.speaker = Speaker.pc
    · simp only [turnsOK, if_pos ha] at hok
      cases i with
      | zero => exact absurd ha (by simpa using hsp)
      | succ j =>
        have hj : j < rest.length := by simpa using h
        have hrec := ih (k + 1) j hj hok.2 (by simpa using hsp)
        have hc : countPC (a :: rest.take j) = countPC (rest.take j) + 1 := by
          simp [countPC, ha]
        simp only [List.get_cons_succ, List.take_succ_cons]
        rw [hc]
        simp only [List.get_cons_succ] at hrec ⊢
        omega
    · simp only [turnsOK, if_neg ha] at hok
      cases i with
      | zero =>
        simpa [countPC] using hok.1
      | succ j =>
        have hj : j < rest.length := by simpa using h
        have hrec := ih k j hj hok.2 (by simpa using hsp)
        have hc : countPC (a :: rest.take j) = countPC (rest.take j) := by
          simp [countPC, ha]
        simp only [List.get_cons_succ, List.take_succ_cons]
        rw [hc]
        simpa using hrec

/-- `countPC` distributes over append. -/
lemma countPC_append (l1 l2 : List TEntry) :
    countPC (l1 ++ l2) = countPC l1 + countPC l2 := by
  simp [countPC, List.filter_append]

/-- Appending an auditor entry (from any state sharing transcript and turn
counter) preserves the invariant. -/
lemma inv_addAud (s s1 : SessionState) (text : String) (na : Option String)
    (ta : Option ℚ) (htr : s1.transcript = s.transcript)
    (htn : s1.turnNumber = s.turnNumber) (h : sessionInv s) :
    sessionInv (addTranscript s1 Speaker.auditor text na ta) := by
  constructor
  · simp only [addTranscript, htr, htn]
    refine turnsOK_append_aud _ 0 _ h.1 (by simp) ?_
    simpa using h.2
  · simp only [addTranscript, htr, htn, countPC_append]
    have hz : countPC [⟨Speaker.auditor, text, na, ta, s.turnNumber⟩] = 0 := by
      simp [countPC]
    rw [hz]
    simpa using h.2

/-- Recording a pc entry after bumping the turn counter preserves the
invariant. -/
lemma inv_addPC (s : SessionState) (text : String) (na : Option String)
    (ta : Option ℚ) (h : sessionInv s) :
    sessionInv (addTranscript { s with turnNumber := s.turnNumber + 1 }
      Speaker.pc text na ta) := by
  constructor
  · simp only [addTranscript]
    refine turnsOK_append_pc _ 0 _ h.1 (by simp) ?_
    simp [h.2]
  · simp only [addTranscript, countPC_append]
    have ho : countPC [⟨Speaker.pc, text, na, ta, s.turnNumber + 1⟩] = 1 := by
      simp [countPC]
    rw [ho]
    simp [h.2]

/-- `start()` preserves the invariant. -/
lemma inv_sessionStart (t : ℚ) (s : SessionState) (h : sessionInv s) :
    sessionInv (sessionStart t s) := by
  unfold sessionStart
  exact inv_addAud s _ _ _ _ rfl rfl h

/-- `_advance_start_rudiments` preserves the invariant. -/
lemma inv_advanceStartRudiments (s : SessionState) (h : sessionInv s) :
    sessionInv (advanceStartRudiments s) := by
  unfold advanceStartRudiments
  split_ifs <;> exact inv_addAud s _ _ _ _ rfl rfl h

/-- `_advance_processing` preserves the invariant. -/
lemma inv_advanceProcessing (s : SessionState) (text : String) (fn : Bool)
    (ai : Option String) (h : sessionInv s) :
    sessionInv (advanceProcessing s text fn ai) := by
  unfold advanceProcessing
  exact inv_addAud s _ _ _ _ rfl rfl h

/-- `_advance_conversational` preserves the invariant. -/
lemma inv_advanceConversational (s : SessionState) (ai : Option String)
    (h : sessionInv s) : sessionInv (advanceConversational s ai) := by
  unfold advanceConversational
  exact inv_addAud s _ _ _ _ rfl rfl h

/-- `_advance_end_rudiments` preserves the invariant. -/
lemma inv_advanceEndRudiments (s : SessionState) (h : sessionInv s) :
    sessionInv (advanceEndRudiments s) := by
  unfold advanceEndRudiments
  split_ifs <;> exact inv_addAud s _ _ _ _ rfl rfl h

/-- `process_pc_input` preserves the invariant. -/
lemma inv_processPCInput (s : SessionState) (text : String) (na : Option String)
    (ta : Option ℚ) (fn : Bool) (ai : Option String) (h : sessionInv s) :
    sessionInv (processPCInput s text na ta fn ai) := by
  unfold processPCInput
  have h2 := inv_addPC s text na ta h
  cases hph : (addTranscript { s with turnNumber := s.turnNumber + 1 }
      Speaker.pc text na ta).phase with
  | setup => simpa [hph] using h2
  | startRudiments =>
    simpa [hph] using inv_advanceStartRudiments _ h2
  | processing =>
    cases hmo : (addTranscript { s with turnNumber := s.turnNumber + 1 }
        Speaker.pc text na ta).mode with
    | structured => simpa [hph, hmo] using inv_advanceProcessing _ text fn ai h2
    | conversational => simpa [hph, hmo] using inv_advanceConversational _ ai h2
  | endRudiments =>
    simpa [hph] using inv_advanceEndRudiments _ h2
  | complete => simpa [hph] using h2

/-- Every router-reachable operation preserves the invariant. -/
lemma inv_applyOp (s : SessionState) (op : SessionOp) (h : sessionInv s) :
    sessionInv (applyOp s op) := by
  cases op with
  | start t => exact inv_sessionStart t s h
  | pcInput text na ta fn ai => exact inv_processPCInput s text na ta fn ai h
  | startEndRud =>
    unfold applyOp startEndRudiments
    exact inv_addAud s _ _ _ _ rfl rfl h
  | endSession => exact h
  | pause t =>
    unfold applyOp sessionPause
    split_ifs <;> exact h
  | resume t =>
    unfold applyOp sessionResume
    split_ifs <;> exact h

/-- The invariant holds in every reachable session state. -/
lemma sessionInv_run (mode : SessionMode) (ops : List SessionOp) :
    sessionInv (runSession mode ops) := by
  have hgen : ∀ (l : List SessionOp) (s : SessionState), sessionInv s →
      sessionInv (l.foldl applyOp s) := by
    intro l
    induction l with
    | nil => intro s hs; exact hs
    | cons op rest ih =>
      intro s hs
      exact ih _ (inv_applyOp s op hs)
  refine hgen ops _ ?_
  constructor
  · trivial
  · simp [sessionInit, countPC]

/-- **C9 (amended).** In every session (any mode, any operation sequence):
transcript turn numbers are nondecreasing in insertion order; the pc
entries carry exactly the contiguous turns `1, 2, …, n`; and every
auditor-originated entry carries the number of pc turns inserted before it —
in particular the session-opening prompt carries turn 0, not a positive
integer (the correction to the claim). -/
theorem session_turn_numbers (mode : SessionMode) (ops : List SessionOp) :
    List.Chain' (· ≤ ·) ((runSession mode ops).transcript.map TEntry.turnNumber) ∧
    (((runSession mode ops).transcript.filter
        (fun e => e.speaker == Speaker.pc)).map TEntry.turnNumber
      = List.range' 1 (countPC (runSession mode ops).transcript)) ∧
    (∀ i (h : i < (runSession mode ops).transcript.length),
      ((runSession mode ops).transcript.get ⟨i, h⟩).speaker ≠ Speaker.pc →
      ((runSession mode ops).transcript.get ⟨i, h⟩).turnNumber
        = countPC ((runSession mode ops).transcript.take i)) := by
  have hinv := sessionInv_run mode ops
  refine ⟨(turnsOK_bound_chain _ 0 hinv.1).2, ?_, ?_⟩
  · simpa using turnsOK_pc_turns _ 0 hinv.1
  · intro i h hsp
    simpa using turnsOK_auditor_turn _ 0 i h hinv.1 hsp

/-- Witness for C9: the concrete transcript carries turns `[0, 1, 1]`, and
the opening auditor prompt at index 0 carries the pc count so far (0). -/
theorem session_turn_numbers_witness :
    ((runSession SessionMode.structured c9Ops).transcript.map TEntry.turnNumber)
      = [0, 1, 1] ∧
    ((runSession SessionMode.structured c9Ops).transcript.get
        ⟨0, by decide⟩).turnNumber
      = countPC ((runSession SessionMode.structured c9Ops).transcript.take 0) := by
  refine ⟨rfl, ?_⟩
  exact (session_turn_numbers SessionMode.structured c9Ops).2.2 0 (by decide) (by decide)

/-- Counterexample to C9 as stated: after `start()` alone the transcript's
turn numbers are `[0]`; the only length-1 contiguous prefix of the positive
integers is `[1]`, so they do not form such a prefix. -/
theorem session_opening_turn_counterexample :
    ((runSession SessionMode.structured [SessionOp.start 0]).transcript.map
        TEntry.turnNumber) = [0] ∧
    ([0] : List ℕ) ≠ List.range' 1 1 := by
  exact ⟨rfl, by decide⟩

/-- **C7.** On the first raw input `x`: the biquad returns `x`, the SMD
returns `x` (position `x`, velocity 0), so the pipeline's first smoothed
output is `x`; and the biquad's reset state is the steady state for constant
input `x` — under the DC-gain identity `b0+b1+b2 = 1+a1+a2` (which the
Butterworth coefficients satisfy), processing `x` again returns `x` and
leaves the state unchanged. -/
theorem pipeline_first_output (b0 b1 b2 a1 a2 x ts : ℚ) :
    (biquadProcess (freshBiquad b0 b1 b2 a1 a2) x).1 = x ∧
    (smdStep freshSMD x).1 = x ∧
    (smdStep freshSMD x).2.position = x ∧
    (smdStep freshSMD x).2.velocity = 0 ∧
    (processSignal (freshPipeline b0 b1 b2 a1 a2) x ts).1.2.2.2.1 = x ∧
    (biquadProcess (biquadReset (freshBiquad b0 b1 b2 a1 a2) x) x).1 = x ∧
    (b0 + b1 + b2 = 1 + a1 + a2 →
      (biquadProcess (biquadReset (freshBiquad b0 b1 b2 a1 a2) x) x).2
        = biquadReset (freshBiquad b0 b1 b2 a1 a2) x) := by
  refine ⟨rfl, rfl, rfl, rfl, rfl, ?_, ?_⟩
  · simp [biquadProcess, biquadReset, freshBiquad]
    ring
  · intro hdc
    simp only [biquadProcess, biquadReset, freshBiquad]
    norm_num
    constructor
    · linear_combination x * hdc
    · ring

/-- Witness for C7 with concrete DC-normalized coefficients
(`b0+b1+b2 = 1+a1+a2 = 1/2`) and input 3. -/
theorem pipeline_first_output_witness :
    ((1 : ℚ) / 8 + 1 / 4 + 1 / 8 = 1 + (-1 / 4) + (-1 / 4)) ∧
    (biquadProcess (freshBiquad (1 / 8) (1 / 4) (1 / 8) (-1 / 4) (-1 / 4)) 3).1 = 3 ∧
    (processSignal (freshPipeline (1 / 8) (1 / 4) (1 / 8) (-1 / 4) (-1 / 4)) 3 0).1.2.2.2.1
      = 3 ∧
    (biquadProcess
        (biquadReset (freshBiquad (1 / 8) (1 / 4) (1 / 8) (-1 / 4) (-1 / 4)) 3) 3).2
      = biquadReset (freshBiquad (1 / 8) (1 / 4) (1 / 8) (-1 / 4) (-1 / 4)) 3 := by
  refine ⟨by norm_num, ?_, ?_, ?_⟩
  · exact (pipeline_first_output (1 / 8) (1 / 4) (1 / 8) (-1 / 4) (-1 / 4) 3 0).1
  · exact (pipeline_first_output (1 / 8) (1 / 4) (1 / 8) (-1 / 4) (-1 / 4) 3 0).2.2.2.2.1
  · exact (pipeline_first_output (1 / 8) (1 / 4) (1 / 8) (-1 / 4) (-1 / 4) 3 0).2.2.2.2.2.2
      (by norm_num)

/-- Short windows classify as `(idle, 0)`. -/
lemma classify_short (w power : List ℚ) (h : w.length < WINDOW_SIZE) :
    classify w power = (NeedleAction.idle, 0) := by
  unfold classify
  rw [if_pos h]

/-- A chain with time gaps of at least `g` stretches the last element at
least `(n-1)·g` past the first. -/
lemma chain_head_last_gap (g : ℚ) :
    ∀ (l : List (ℚ × ℚ)) (h : l ≠ []),
      List.Chain' (fun a b : ℚ × ℚ => a.1 + g ≤ b.1) l →
      (l.head h).1 + ((l.length - 1 : ℕ) : ℚ) * g ≤ (l.getLast h).1 := by
  intro l
  induction l with
  | nil => intro h; exact absurd rfl h
  | cons a rest ih =>
    intro h hchain
    cases rest with
    | nil => simp
    | cons b t =>
      have hc := List.chain'_cons.1 hchain
      have hrec := ih (by simp) hc.2
      simp only [List.head_cons, List.getLast_cons_cons] at hrec ⊢
      have hlen : ((b :: t).length - 1 : ℕ) + 1 = (a :: b :: t).length - 1 := by
        simp
      have hcast : (((a :: b :: t).length - 1 : ℕ) : ℚ)
          = (((b :: t).length - 1 : ℕ) : ℚ) + 1 := by
        rw [← hlen]
        push_cast
        ring
      rw [hcast]
      have h1 := hc.1
      nlinarith [hrec, h1]

/-- **C10.** `check_for_read` returns `None` whenever fewer than
`WINDOW_SIZE = 200` samples fall in the ±200 ms window (the classifier
returns `(idle, 0)` on short windows and idle is filtered out); and at
sample rates of at most 100 Hz (consecutive timestamps at least 10 ms
apart) at most 41 samples fit the 400 ms window, so `check_for_read`
returns `None` on every such input. -/
theorem instant_read_always_none (cmdEnd : ℚ) (data : List (ℚ × ℚ))
    (power : List ℚ) :
    ((instantWindowValues cmdEnd data).length < WINDOW_SIZE →
      checkForRead cmdEnd data power = none) ∧
    (List.Chain' (fun a b : ℚ × ℚ => a.1 + 1 / 100 ≤ b.1) data →
      (instantWindowValues cmdEnd data).length ≤ 41 ∧
      checkForRead cmdEnd data power = none) := by
  have hshort : (instantWindowValues cmdEnd data).length < WINDOW_SIZE →
      checkForRead cmdEnd data power = none := by
    intro hlen
    unfold checkForRead
    split_ifs with h1 h2 h3 h4
    · rfl
    · rfl
    · rfl
    · rfl
    · exfalso
      apply h3
      left
      rw [classify_short _ _ hlen]
  refine ⟨hshort, ?_⟩
  intro hchain
  set F := data.filter (fun p =>
    decide (cmdEnd - 200 / 1000 ≤ p.1) && decide (p.1 ≤ cmdEnd + 200 / 1000)) with hF
  have hlenF : (instantWindowValues cmdEnd data).length = F.length := by
    simp [instantWindowValues, hF]
  have hbound : F.length ≤ 41 := by
    by_cases hemp : F = []
    · rw [hemp]; simp
    · haveI : IsTrans (ℚ × ℚ) (fun a b : ℚ × ℚ => a.1 + 1 / 100 ≤ b.1) := by
        refine ⟨fun a b c hab hbc => ?_⟩
        simp only at hab hbc ⊢
        linarith
      have hchainF : List.Chain' (fun a b : ℚ × ℚ => a.1 + 1 / 100 ≤ b.1) F :=
        List.Chain'.sublist hchain (by rw [hF]; exact List.filter_sublist data)
      have hspread := chain_head_last_gap (1 / 100) F hemp hchainF
      have hheadmem : F.head hemp ∈ F := List.head_mem hemp
      have hlastmem : F.getLast hemp ∈ F := List.getLast_mem hemp
      have hheadP := List.of_mem_filter (by rw [← hF]; exact hheadmem)
      have hlastP := List.of_mem_filter (by rw [← hF]; exact hlastmem)
      simp only [Bool.and_eq_true, decide_eq_true_eq] at hheadP hlastP
      have hlow : cmdEnd - 200 / 1000 ≤ (F.head hemp).1 := hheadP.1
      have hhigh : (F.getLast hemp).1 ≤ cmdEnd + 200 / 1000 := hlastP.2
      have hq : ((F.length - 1 : ℕ) : ℚ) * (1 / 100) ≤ 400 / 1000 := by linarith
      have hq2 : ((F.length - 1 : ℕ) : ℚ) ≤ 40 := by linarith
      have hq3 : F.length - 1 ≤ 40 := by exact_mod_cast hq2
      have hne : 1 ≤ F.length := List.length_pos.2 hemp
      omega
  refine ⟨by rw [hlenF]; exact hbound, ?_⟩
  apply hshort
  rw [hlenF]
  unfold WINDOW_SIZE
  omega

/-- Witness for C10: one sample at the command end, at 100 Hz trivially. -/
theorem instant_read_always_none_witness :
    List.Chain' (fun a b : ℚ × ℚ => a.1 + 1 / 100 ≤ b.1) [((0 : ℚ), (1 : ℚ) / 2)] ∧
    checkForRead 0 [((0 : ℚ), (1 : ℚ) / 2)] [] = none := by
  refine ⟨by simp, ?_⟩
  exact ((instant_read_always_none 0 [((0 : ℚ), (1 : ℚ) / 2)] []).2 (by simp)).2

/-! ## Concrete evaluations (witnesses and counterexamples needing
kernel reduction of rational arithmetic) -/

section RatEval

attribute [local semireducible] Rat.mul Rat.add Rat.sub Rat.inv Rat.ofScientific

set_option maxRecDepth 8000

/-- Witness for C2 at the concrete input (30 reaction samples, no body
movement, score 86). -/
theorem charge_score_formula_witness :
    20 ≤ (reactionSamples c2Q c2Buf).length ∧
      (finalizeRecord c2Q c2Buf).bodyMovement = false ∧
      (finalizeRecord c2Q c2Buf).chargeScore
        = specChargeScoreTrunc ((reactionSamples c2Q c2Buf).map Prod.snd) c2Q.baselineSignal := by
  refine ⟨by decide, by decide, ?_⟩
  exact (charge_score_formula c2Q c2Buf (by decide)).2 (by decide)

/-- Counterexample to C2 as stated: with rounding to the nearest integer (the
claim's wording) the concrete input would score 87, but the code truncates
via `int()` and records 86. -/
theorem charge_score_rounding_counterexample :
    (finalizeRecord c2Q c2Buf).chargeScore = 86 ∧
      specChargeScoreRounded ((reactionSamples c2Q c2Buf).map Prod.snd) c2Q.baselineSignal = 87 ∧
      (finalizeRecord c2Q c2Buf).chargeScore
        ≠ specChargeScoreRounded ((reactionSamples c2Q c2Buf).map Prod.snd) c2Q.baselineSignal := by
  refine ⟨by decide, by decide, by decide⟩

/-- Witness for C3 at the concrete spike: the detector fires and the
declarative conditions hold. -/
theorem body_movement_iff_witness :
    (10 ≤ c3V.length ∧ c3T.length = c3V.length ∧ List.Pairwise (· ≤ ·) c3T) ∧
      isBodyMovement c3V c3T 0 = true ∧ bodyMovementSpec c3V c3T 0 := by
  refine ⟨⟨by decide, by decide, by decide⟩, by decide, ?_⟩
  exact (body_movement_iff c3V c3T 0 (by decide) (by decide) (by decide)).mp (by decide)

/-- Counterexample to C3 as stated: at a peak deviation of exactly 0.15 the
code classifies body movement even though the claim's strict "exceeds 0.15"
condition fails, so the stated iff is false. -/
theorem body_movement_peak_boundary_counterexample :
    isBodyMovement c3XV c3T 0 = true ∧ ¬ ((0.15 : ℚ) < bmPeak c3XV 0) := by
  exact ⟨by decide, by decide⟩

end RatEval
